import Mathlib

/-! # OpenRCX `Ext` orchestration layer (src/src/ext.cpp)

A shallow embedding of the entry points of `OpenRCX::Ext`.  The extraction
engine (`extMain`), the database (`odb`) and the logger are collaborators whose
code is not part of the file: every call made on them is recorded, in program
order, as an `Event` of a trace, and every value they return is supplied by a
`World` of oracles.  The result of the fallible engine calls is stored in the
event itself, so that a property such as "the RC generation of a child returned
0" is a property of the trace.
-/

set_option autoImplicit false

namespace OpenRCX

/-! ## Values -/

/-- Status code `TCL_OK` of tcl.h. -/
def TCL_OK : Int := 0

/-- Status code `TCL_ERROR` of tcl.h. -/
def TCL_ERROR : Int := 1

/-- Conversion of an integer status to the `bool` return type of the entry
points of `Ext`: every non-zero value becomes `true`. -/
def boolOf (n : Int) : Bool := n != 0

/-- Conversion of an `int` option value to a C++ `uint` (32 bits). -/
def toUInt (i : Int) : Nat := (i % 2 ^ 32).toNat

/-- A `double` or `float` value that the entry points only hand over to the engine. -/
abbrev Double := Rat

/-- An argument of a printf-style logger call. -/
inductive FmtArg where
  | str (s : String)
  | optStr (s : Option String)
  | int (n : Int)
  deriving DecidableEq, Repr

/-- The part of an `odb::dbBlock` that `Ext` reads: its name and the ids of its nets.
The children of a block are given by `World.getChildren`. -/
structure dbBlock where
  name : String
  nets : List Nat
  deriving DecidableEq, Repr

/-- The argument list of `extMain::makeBlockRCsegs`, in the order of the call
(the trailing `this` pointer is left out). -/
structure RCArgs where
  btermThresholdFlag : Bool
  cmpFile : Option String
  density_model : Bool
  litho : Bool
  nets : Option String
  bbox : Option String
  ibox : Option String
  ccUp : Nat
  ccFlag : Nat
  ccBandTracks : Int
  use_signal_table : Nat
  max_res : Double
  merge_via_res : Bool
  extdbg : Nat
  preserve_geom : Bool
  re_run : Bool
  eco : Bool
  gs : Bool
  rlog : Bool
  dbNetSdb : Option Nat
  ccThres : Double
  ccContextDepth : Int
  overCell : Bool
  extRules : Option String
  deriving DecidableEq, Repr

/-- The argument list of `extMain::readSPEF`, in the order of the call. -/
structure ReadSPEFArgs where
  filename : Option String
  net : Option String
  force : Bool
  useIds : Bool
  r_conn : Bool
  N : Option String
  r_cap : Bool
  r_cc_cap : Bool
  r_res : Bool
  cc_threshold : Double
  cc_ground_factor : Double
  length_unit : Double
  m_map : Bool
  no_cap_num_collapse : Bool
  cap_node_map_file : Option String
  log : Bool
  corner : Int
  low_guard : Double
  upper_guard : Double
  exclude_net_subword : Option String
  net_subword : Option String
  rc_stats_file : Option String
  db_corner_name : Option String
  calibrate_base_corner : Option String
  spef_corner : Int
  fix_loop : Int
  keep_loaded_corner : Bool
  stampWire : Bool
  netSdb : Option Nat
  testParsing : Nat
  more_to_read : Bool
  diff : Bool
  calibrate : Bool
  app_print_limit : Int
  deriving DecidableEq, Repr

/-- The argument list of the bulk `extMain::writeSPEF` call of `Ext::write_spef`
(lines 787-810), in the order of the call. -/
structure WriteSPEFArgs where
  file : Option String
  nets : Option String
  useIds : Bool
  no_name_map : Bool
  N : Option String
  term_junction_xy : Bool
  exclude_cells : Option String
  cap_units : Option String
  res_units : Option String
  gz : Bool
  stop : Bool
  w_clock : Bool
  w_conn : Bool
  w_cap : Bool
  w_cc_cap : Bool
  w_res : Bool
  no_c_num : Bool
  initOnly : Bool
  single_pi : Bool
  no_backslash : Bool
  corner : Int
  name : Option String
  flatten : Bool
  parallel : Bool
  deriving DecidableEq, Repr

/-- A C stream: the standard output or a file opened by `fopen`. -/
inductive FILE where
  | stdout
  | opened (handle : Nat)
  deriving DecidableEq, Repr

/-- One `update_double`, `update_int` or `update_bbox` call on the limits record
(`extNetStats`) of `Ext::net_stats`: the field it sets, the text it parses and
the unit factor (`none` is the default of the declaration). -/
inductive LimitUpdate where
  | update_double (field : String) (word : String)
  | update_int (field : String) (word : String) (units : Option Int)
  | update_bbox (word : String)
  deriving DecidableEq, Repr

/-- The fields of `extMainOptions` that `Ext::bench_wires` sets. -/
structure extMainOptions where
  _topDir : Option String
  _met_cnt : Int
  _met : Int
  _overDist : Int
  _underDist : Int
  _overMet : Int
  _over : Bool
  _underMet : Int
  _overUnder : Bool
  _len : Int
  _wireCnt : Int
  _name : Option String
  _default_lef_rules : Bool
  _nondefault_lef_rules : Bool
  _3dFlag : Bool
  _multiple_widths : Bool
  _write_to_solver : Bool
  _read_from_solver : Bool
  _run_solver : Bool
  _diag : Bool
  _db_only : Bool
  _gen_def_patterns : Bool
  _thListFlag : Bool
  _listsFlag : Bool
  _wsListFlag : Bool
  _thicknessTable : List Double
  _gridTable : List Double
  _widthTable : List Double
  _spaceTable : List Double
  _densityTable : List Double
  deriving DecidableEq, Repr

/-- What `Ext::set_block` prints of an instance: its id and name and those of
its master. -/
structure InstInfo where
  id : Int
  name : String
  masterId : Int
  masterName : String
  deriving DecidableEq, Repr

set_option maxHeartbeats 4000000 in
/-- One call made by `Ext` on a collaborator, with the value it returned where
the code reads it. -/
inductive Event where
  | setDB
  | notice (fmt : String) (args : List FmtArg)
  | warning (fmt : String) (args : List FmtArg)
  | checkLayerResistance (result : Bool)
  | addExtModel
  | initSearchBlock (blk : dbBlock)
  | setPowerExtOptions
  | set_debug_nets (nets : Option String)
  | skip_via_wires (v : Bool)
  | set_lef_res (v : Bool)
  | getNetSdb (result : Option Nat)
  | makeNetSdb (result : Nat)
  | AthResourceLog (msg : String)
  | rcNetGen (net : Nat) (result : Nat)
  | getRSeg (blk : dbBlock) (id : Nat)
  | makeBlockRCsegs (blk : dbBlock) (args : RCArgs) (result : Nat)
  | newExtMain
  | tileSetDB
  | tileSetBlock (blk : dbBlock)
  | tileMakeBlockRCsegs (blk : dbBlock) (args : RCArgs) (result : Nat)
  | assemblyExt (top : dbBlock) (blk : dbBlock)
  | reportTotalCap (file : String) (capOnly resOnly : Bool) (ccMult : Double)
      (ref read : Option String)
  | cleanSdb (sdb : Nat)
  | resetNetSdb
  | getSignalNetSdb (result : Nat)
  | mkWords (text : String)
  | readSPEF (args : ReadSPEFArgs)
  | readSPEFincr (filename : Option String)
  | calibrate (filename : Option String) (m_map : Bool) (upper_limit lower_limit : Double)
      (db_corner_name : String) (corner spef_corner : Int)
  | matchSpef (filename : Option String) (m_map : Bool) (db_corner_name : String)
      (corner spef_corner : Int)
  | writeSPEFend (flag : Bool)
  | writeSPEFnet (netId : Nat) (single_pi debug : Bool) (corner : Int) (name : Option String)
  | writeSPEF (args : WriteSPEFArgs)
  | getDbCornerModel (name : String) (result : Int)
  | addRCCornerScaled (name : String) (model : Int) (res_factor cc_factor gndc_factor : Double)
      (result : Option String)
  | getDbCornerIndex (name : String) (result : Int)
  | limitsReset
  | limitsUpdate (u : LimitUpdate)
  | fopen (filename : String) (mode : String) (result : Option Nat)
  | fclose (handle : Nat)
  | printNetStats (fp : FILE) (blk : dbBlock) (limits : List LimitUpdate)
      (skipRC skipDb skipPower : Bool) (n : Int) (nets : List Int)
  | getDoubleArray (text : String) (result : List Double)
  | benchWires (opt : extMainOptions)
  | findInst (name : String) (result : Option InstInfo)
  | findChild (name : String) (result : Option dbBlock)
  | deleteExt
  | setBlock (blk : dbBlock)
  | body (entry : String)
  deriving DecidableEq, Repr

/-- The collaborators as seen from one call of an entry point: what the
database and the engine answer.  The answers of the calls that can be repeated
within one run depend on the calls made so far. -/
structure World where
  /-- Compile-time flag `ZUI`. -/
  ZUI : Bool
  /-- The identifier `rlog` read by the code under `ZUI`. -/
  rlog : Bool
  /-- Whether `_db->getChip()` is non-null. -/
  getChip : Bool
  /-- The block of the engine, `_ext->getBlock()`; `none` is the null pointer. -/
  getBlock : Option dbBlock
  /-- Child blocks, `dbBlock::getChildren`, in iteration order. -/
  getChildren : dbBlock → List dbBlock
  checkLayerResistance : Bool
  /-- The search index already attached to the block, `getNetSdb()`. -/
  getNetSdb : Option Nat
  /-- The search index built by `getNetSdb(_context, tech)`. -/
  makeNetSdb : Nat
  /-- The index returned by `getSignalNetSdb(_context, tech)`. -/
  getSignalNetSdb : Nat
  rcNetGen : List Event → Nat → Nat
  /-- Return value of `makeBlockRCsegs` of the engine `_ext`. -/
  makeBlockRCsegs : List Event → dbBlock → RCArgs → Nat
  /-- Return value of `makeBlockRCsegs` of the engine created for a child block. -/
  tileMakeBlockRCsegs : List Event → dbBlock → RCArgs → Nat
  /-- The words that `mkWords` of the tokenizer splits a text into. -/
  mkWords : String → List String
  /-- The numbers that `getDoubleArray` of the tokenizer reads from the text
  last given to `mkWords`. -/
  getDoubleArray : String → List Double := fun _ => []
  /-- Return value of `extMain::getDbCornerIndex`. -/
  getDbCornerIndex : String → Int := fun _ => -1
  /-- Return value of `fopen(filename, "w")`; `none` is the null pointer. -/
  fopen : String → Option Nat := fun _ => none
  /-- Return value of `extMain::printNetStats` and the list it fills. -/
  printNetStats : FILE → dbBlock → List LimitUpdate → Int × List Int := fun _ _ _ => (0, [])
  /-- The instance `findInst` finds in the block of the chip; `none` is the null pointer. -/
  findInst : String → Option InstInfo := fun _ => none
  /-- The child `findChild` finds in the block of the chip; `none` is the null pointer. -/
  findChild : String → Option dbBlock := fun _ => none

/-- The fields of `Ext` that the entry points update. -/
structure Ext where
  _initWithChip : Bool
  deriving DecidableEq, Repr

/-- Outcome of one call of an entry point.  `status = none` stands for a run
that reached undefined behaviour (a null dereference or a write past the end
of a buffer); the trace then holds the calls made up to that point. -/
structure Run where
  status : Option Bool
  trace : List Event
  ext : Ext

/-- The fields of `ExtractOptions` read by `Ext::extract`. -/
structure ExtractOptions where
  ext_model_file : Option String
  net : Option String
  debug_net : Option String
  cmp_file : Option String
  bbox : Option String
  ibox : Option String
  lef_rc : Bool
  power_grid : Bool
  skip_power_stubs : Bool
  wire_density : Bool
  litho : Bool
  no_merge_via_res : Bool
  no_gs : Bool
  over_cell : Bool
  tile : Bool
  skip_via_wires : Bool
  lef_res : Bool
  preserve_geom : Bool
  re_run : Bool
  eco : Bool
  rlog : Bool
  cc_up : Int
  cc_model : Int
  cc_band_tracks : Int
  signal_table : Int
  test : Int
  tiling : Int
  context_depth : Int
  coupling_threshold : Double
  max_res : Double

/-! ## `Ext::dbUpdate` -/

/-- `Ext::dbUpdate`: binds the engine to the database the first time an entry
point runs with a chip present. -/
def dbUpdate (W : World) (x : Ext) : Ext × List Event :=
  if !x._initWithChip && W.getChip then
    ({ x with _initWithChip := true }, [Event.setDB])
  else
    (x, [])

/-! ## `Ext::extract` -/

/-- The chain of tests on `tilingDegree` (lines 569-602): the mode code handed to
the RC generation of the target block. `extdbg` is the caller's test code. -/
def resolveExtdbg (tilingDegree extdbg : Nat) : Nat :=
  if tilingDegree = 1 then 501
  else if tilingDegree = 10 then 603
  else if tilingDegree = 7 then 703
  else if tilingDegree = 77 then 773
  else if tilingDegree = 8 then 803
  else if tilingDegree = 9 then 603
  else if tilingDegree = 777 then 777
  else extdbg

/-- Band-track count after lines 547-549: test codes 100 and 102 force it to 0. -/
def effectiveBandTracks (opts : ExtractOptions) : Int :=
  if toUInt opts.test = 100 ∨ toUInt opts.test = 102 then 0 else opts.cc_band_tracks

/-- The locals `dbNetSdb` and `extSdb` after lines 543-567, with the calls made. -/
structure SdbState where
  dbNetSdb : Option Nat
  extSdb : Bool
  events : List Event

/-- Lines 550-567: with a non-zero band-track count the `eco` option is
cleared and no index is looked up; otherwise the code under `ZUI` takes the
index of the block or builds one and marks it as owned. -/
def acquireSdb (W : World) (ccBandTracks : Int) : SdbState :=
  if ccBandTracks ≠ 0 then ⟨none, false, []⟩
  else if W.ZUI then
    match W.getNetSdb with
    | some s => ⟨some s, false, [Event.getNetSdb (some s)]⟩
    | none =>
      ⟨some W.makeNetSdb, true,
        [Event.getNetSdb none]
          ++ (if W.rlog then [Event.AthResourceLog "before get sdb"] else [])
          ++ [Event.makeNetSdb W.makeNetSdb]
          ++ (if W.rlog then [Event.AthResourceLog "after get sdb"] else [])⟩
  else ⟨none, false, []⟩

/-- The loop of the branch `tilingDegree == 777` (lines 592-601): one `rcNetGen`
call per net of the block; returns the counter `cnt` and the extended trace. -/
def rcNetGenLoop (W : World) : List Nat → Nat → List Event → Nat × List Event
  | [], cnt, tr => (cnt, tr)
  | net :: rest, cnt, tr =>
    let r := W.rcNetGen tr net
    rcNetGenLoop W rest ((cnt + r) % 2 ^ 32) (tr ++ [Event.rcNetGen net r])

/-- Lines 589-602. -/
def tiling777 (W : World) (top : dbBlock) (tr : List Event) : List Event :=
  let l := rcNetGenLoop W top.nets 0 tr
  l.2 ++ [Event.notice "777: Final rc segments = %d\n" [FmtArg.int l.1],
          Event.getRSeg top 113]

/-- Lines 638-643: the notices listing the child blocks. -/
def listTiles (children : List dbBlock) : List Event :=
  [Event.notice "List of extraction tile blocks: \n" []]
    ++ children.map (fun blk => Event.notice "%s " [FmtArg.str blk.name])
    ++ [Event.notice "\n" []]

/-- The extraction loop over the children (lines 649-686).  Each child gets a
new engine and its RC generation is run with mode code 0; the first child whose
RC generation returns 0 ends the loop.  Returns whether every child succeeded,
and the extended trace. -/
def extractTiles (W : World) (args : RCArgs) : List dbBlock → List Event → Bool × List Event
  | [], tr => (true, tr)
  | blk :: rest, tr =>
    let tr1 := tr ++ [Event.notice "Extacting block %s...\n" [FmtArg.str blk.name],
                      Event.newExtMain, Event.tileSetDB, Event.tileSetBlock blk]
    let r := W.tileMakeBlockRCsegs tr1 blk args
    let tr2 := tr1 ++ [Event.tileMakeBlockRCsegs blk args r]
    if r = 0 then
      (false, tr2 ++ [Event.warning "Failed to Extact block %s...\n" [FmtArg.str blk.name]])
    else
      extractTiles W args rest tr2

/-- The assembly loop over the children (lines 688-693). -/
def assembleTiles (top : dbBlock) (children : List dbBlock) : List Event :=
  children.flatMap (fun blk =>
    [Event.notice "Assembly of block %s...\n" [FmtArg.str blk.name],
     Event.assemblyExt top blk])

/-- Lines 707-718: release of an index that this run built. -/
def releaseSdb (W : World) (opts : ExtractOptions) (ccBandTracks : Int) (s : SdbState)
    (extdbg : Nat) : List Event :=
  if ccBandTracks = 0 then
    if s.extSdb && extdbg != 99 then
      (if opts.rlog then [Event.AthResourceLog "before remove sdb"] else [])
        ++ (match s.dbNetSdb with
            | some i => [Event.cleanSdb i]
            | none => [])
        ++ (if W.ZUI then
              [Event.resetNetSdb]
                ++ (if W.rlog then [Event.AthResourceLog "after remove sdb"] else [])
            else [])
    else []
  else []

/-- The arguments of the call of `makeBlockRCsegs` on the target block (lines 603-627). -/
def mainRCArgs (W : World) (opts : ExtractOptions) : RCArgs :=
  let ccBandTracks := effectiveBandTracks opts
  { btermThresholdFlag := opts.tile
    cmpFile := opts.cmp_file
    density_model := opts.wire_density
    litho := opts.litho
    nets := opts.net
    bbox := opts.bbox
    ibox := opts.ibox
    ccUp := toUInt opts.cc_up
    ccFlag := toUInt opts.cc_model
    ccBandTracks := ccBandTracks
    use_signal_table := toUInt opts.signal_table
    max_res := opts.max_res
    merge_via_res := if opts.no_merge_via_res then false else true
    extdbg := resolveExtdbg (toUInt opts.tiling) (toUInt opts.test)
    preserve_geom := opts.preserve_geom
    re_run := opts.re_run
    eco := if ccBandTracks ≠ 0 then false else opts.eco
    gs := if opts.no_gs then false else true
    rlog := opts.rlog
    dbNetSdb := (acquireSdb W ccBandTracks).dbNetSdb
    ccThres := opts.coupling_threshold
    ccContextDepth := opts.context_depth
    overCell := opts.over_cell
    extRules := opts.ext_model_file }

/-- Lines 699-723, reached when no RC generation failed: the total-capacitance
report, the release of the index and the closing notice.  The file name is
printed into a buffer of 500 bytes; a name that does not fit is undefined
behaviour. -/
def extractFinish (W : World) (x : Ext) (opts : ExtractOptions) (top : dbBlock)
    (tr : List Event) : Run :=
  let ccBandTracks := effectiveBandTracks opts
  let extdbg := resolveExtdbg (toUInt opts.tiling) (toUInt opts.test)
  if !opts.power_grid && !(top.name.utf8ByteSize + 8 ≤ 500) then
    ⟨none, tr, x⟩
  else
    ⟨some (boolOf 0),
     tr ++ (if !opts.power_grid then
              [Event.reportTotalCap (top.name ++ ".totCap") true false 1 none none]
            else [])
        ++ releaseSdb W opts ccBandTracks (acquireSdb W ccBandTracks) extdbg
        ++ [Event.notice "Finished extracting %s.\n" [FmtArg.str top.name]],
     x⟩

/-- Lines 631-697, reached when the RC generation of the target block succeeded. -/
def extractHier (W : World) (x : Ext) (opts : ExtractOptions) (top : dbBlock)
    (tr : List Event) : Run :=
  let extdbg := resolveExtdbg (toUInt opts.tiling) (toUInt opts.test)
  if toUInt opts.tiling = 1 then
    extractFinish W x opts top (tr ++ listTiles (W.getChildren top))
  else if extdbg = 501 then
    let t := extractTiles W { mainRCArgs W opts with extdbg := 0 } (W.getChildren top) tr
    if t.1 then
      extractFinish W x opts top (t.2 ++ assembleTiles top (W.getChildren top))
    else
      ⟨some (boolOf TCL_ERROR), t.2, x⟩
  else
    extractFinish W x opts top tr

/-- Lines 498-602: the setup calls, the lookup of the search index and the
branch of tiling degree 777, added to the trace `tr`.  In the code under `ZUI`
the null test of line 503 cannot fail, since line 489 has dereferenced the
block, and the arguments of `setPowerExtOptions` are names that the function
does not declare, so the call is recorded without them. -/
def extractSetup (W : World) (opts : ExtractOptions) (top : dbBlock) (tr : List Event) :
    List Event :=
  let t1 := tr
    ++ (if W.ZUI && opts.power_grid then
          [Event.initSearchBlock top, Event.setPowerExtOptions]
        else [])
    ++ [Event.set_debug_nets opts.debug_net, Event.skip_via_wires opts.skip_via_wires,
        Event.set_lef_res opts.lef_res]
    ++ (acquireSdb W (effectiveBandTracks opts)).events
  if toUInt opts.tiling = 777 then tiling777 W top t1 else t1

/-- Lines 498-629, reached when the LEF check did not end the run: the setup,
the resolution of the mode code and the RC generation of the target block. -/
def extractMain (W : World) (x : Ext) (opts : ExtractOptions) (top : dbBlock)
    (tr : List Event) : Run :=
  let t2 := extractSetup W opts top tr
  let r := W.makeBlockRCsegs t2 top (mainRCArgs W opts)
  let t3 := t2 ++ [Event.makeBlockRCsegs top (mainRCArgs W opts) r]
  if r = 0 then
    ⟨some (boolOf TCL_ERROR), t3, x⟩
  else
    extractHier W x opts top t3

/-- `Ext::extract`. -/
def extract (W : World) (x : Ext) (opts : ExtractOptions) : Run :=
  let u := dbUpdate W x
  match W.getBlock with
  | none => ⟨none, u.2, u.1⟩
  | some top =>
    let t0 := u.2 ++ [Event.notice "extracting %s ...\n" [FmtArg.str top.name]]
    if opts.lef_rc then
      if !W.checkLayerResistance then
        ⟨some (boolOf TCL_ERROR), t0 ++ [Event.checkLayerResistance false], u.1⟩
      else
        extractMain W u.1 opts top
          (t0 ++ [Event.checkLayerResistance true, Event.addExtModel,
                  Event.notice "Using LEF RC values to extract!\n" []])
    else
      extractMain W u.1 opts top t0

/-! ### Sample inputs -/

/-- Options with every flag off, every text absent and every number 0. -/
def ExtractOptions.zero : ExtractOptions :=
  { ext_model_file := none, net := none, debug_net := none, cmp_file := none,
    bbox := none, ibox := none, lef_rc := false, power_grid := false,
    skip_power_stubs := false, wire_density := false, litho := false,
    no_merge_via_res := false, no_gs := false, over_cell := false, tile := false,
    skip_via_wires := false, lef_res := false, preserve_geom := false, re_run := false,
    eco := false, rlog := false, cc_up := 0, cc_model := 0, cc_band_tracks := 0,
    signal_table := 0, test := 0, tiling := 0, context_depth := 0,
    coupling_threshold := 0, max_res := 0 }

/-- A tokenizer for the sample inputs: the words of a text separated by blanks. -/
def splitWords : List Char → List Char → List String
  | [], cur => if cur = [] then [] else [String.mk cur.reverse]
  | c :: cs, cur =>
    if c = ' ' then
      (if cur = [] then splitWords cs [] else String.mk cur.reverse :: splitWords cs [])
    else splitWords cs (c :: cur)

/-- A design with a chip, a top block "top" and two child blocks "a" and "b";
every RC generation succeeds except that of "b". -/
def sampleWorld : World :=
  { ZUI := false, rlog := false, getChip := true,
    getBlock := some ⟨"top", [1, 2]⟩,
    getChildren := fun blk => if blk.name = "top" then [⟨"a", [1]⟩, ⟨"b", [2]⟩] else [],
    checkLayerResistance := true,
    getNetSdb := none, makeNetSdb := 7, getSignalNetSdb := 8,
    rcNetGen := fun _ _ => 1,
    makeBlockRCsegs := fun _ _ _ => 1,
    tileMakeBlockRCsegs := fun _ blk _ => if blk.name = "b" then 0 else 1,
    mkWords := fun s => splitWords s.data [] }

/-! ## SPEF input: `read_spef`, `diff_spef`, `calibrate`, `match` -/

/-- Word `ii` of the tokenizer after `mkWords`; `none` is the null pointer
that stands for a word that does not exist. -/
def parserGet (words : List String) (ii : Nat) : Option String := words[ii]?

/-- The fields of `ReadSpefOpts` read by `Ext::read_spef`. -/
structure ReadSpefOpts where
  file : Option String
  net : Option String
  force : Bool
  use_ids : Bool
  r_conn : Bool
  N : Option String
  r_cap : Bool
  r_cc_cap : Bool
  r_res : Bool
  cc_threshold : Double
  cc_ground_factor : Double
  length_unit : Double
  m_map : Bool
  no_cap_num_collapse : Bool
  cap_node_map_file : Option String
  log : Bool
  corner : Int
  db_corner_name : Option String
  calibrate_base_corner : Option String
  spef_corner : Int
  fix_loop : Int
  keep_loaded_corner : Bool
  stamp_wire : Bool
  test_parsing : Int
  more_to_read : Bool
  app_print_limit : Int

/-- The arguments of the `readSPEF` call of `Ext::read_spef` (lines 848-881). -/
def readArgs (opt : ReadSpefOpts) (filename : Option String) (netSdb : Option Nat) :
    ReadSPEFArgs :=
  { filename := filename
    net := opt.net
    force := opt.force
    useIds := opt.use_ids
    r_conn := opt.r_conn
    N := opt.N
    r_cap := opt.r_cap
    r_cc_cap := opt.r_cc_cap
    r_res := opt.r_res
    cc_threshold := opt.cc_threshold
    cc_ground_factor := opt.cc_ground_factor
    length_unit := opt.length_unit
    m_map := opt.m_map
    no_cap_num_collapse := opt.no_cap_num_collapse
    cap_node_map_file := opt.cap_node_map_file
    log := opt.log
    corner := opt.corner
    low_guard := 0
    upper_guard := 0
    exclude_net_subword := none
    net_subword := none
    rc_stats_file := none
    db_corner_name := opt.db_corner_name
    calibrate_base_corner := opt.calibrate_base_corner
    spef_corner := opt.spef_corner
    fix_loop := opt.fix_loop
    keep_loaded_corner := opt.keep_loaded_corner
    stampWire := opt.stamp_wire
    netSdb := netSdb
    testParsing := toUInt opt.test_parsing
    more_to_read := opt.more_to_read
    diff := false
    calibrate := false
    app_print_limit := opt.app_print_limit }

/-- Lines 840-887 of `Ext::read_spef`, after the index `netSdb` is settled. -/
def readFiles (W : World) (x : Ext) (opt : ReadSpefOpts) (netSdb : Option Nat)
    (tr : List Event) : Run :=
  match opt.file with
  | none => ⟨some (boolOf 0), tr ++ [Event.notice "Please input file name.\n" []], x⟩
  | some filename =>
    if filename = "" then
      ⟨some (boolOf 0), tr ++ [Event.notice "Please input file name.\n" []], x⟩
    else
      let words := W.mkWords filename
      ⟨some (boolOf 0),
       tr ++ [Event.mkWords filename, Event.readSPEF (readArgs opt (parserGet words 0) netSdb)]
          ++ (words.drop 1).map (fun w => Event.readSPEFincr (some w)),
       x⟩

/-- `Ext::read_spef`. -/
def read_spef (W : World) (x : Ext) (opt : ReadSpefOpts) : Run :=
  let u := dbUpdate W x
  let t0 := u.2 ++ [Event.notice "reading %s\n" [FmtArg.optStr opt.file]]
  if W.ZUI && opt.stamp_wire then
    match W.getBlock with
    | none => ⟨none, t0, u.1⟩
    | some _ =>
      readFiles W u.1 opt (some W.getSignalNetSdb) (t0 ++ [Event.getSignalNetSdb W.getSignalNetSdb])
  else
    readFiles W u.1 opt none t0

/-- The fields of `DiffOptions` read by `Ext::diff_spef`. -/
structure DiffOptions where
  file : String
  net : Option String
  use_ids : Bool
  r_conn : Bool
  r_cap : Bool
  r_cc_cap : Bool
  r_res : Bool
  m_map : Bool
  log : Bool
  ext_corner : Int
  low_guard : Double
  upper_guard : Double
  exclude_net_subword : Option String
  net_subword : Option String
  rc_stats_file : Option String
  db_corner_name : Option String
  spef_corner : Int
  test_parsing : Int

/-- The arguments of the `readSPEF` call of `Ext::diff_spef` (lines 911-944). -/
def diffArgs (opt : DiffOptions) (filename : Option String) : ReadSPEFArgs :=
  { filename := filename
    net := opt.net
    force := false
    useIds := opt.use_ids
    r_conn := opt.r_conn
    N := none
    r_cap := opt.r_cap
    r_cc_cap := opt.r_cc_cap
    r_res := opt.r_res
    cc_threshold := -1
    cc_ground_factor := 0
    length_unit := 1
    m_map := opt.m_map
    no_cap_num_collapse := false
    cap_node_map_file := none
    log := opt.log
    corner := opt.ext_corner
    low_guard := opt.low_guard
    upper_guard := opt.upper_guard
    exclude_net_subword := opt.exclude_net_subword
    net_subword := opt.net_subword
    rc_stats_file := opt.rc_stats_file
    db_corner_name := opt.db_corner_name
    calibrate_base_corner := none
    spef_corner := opt.spef_corner
    fix_loop := 0
    keep_loaded_corner := false
    stampWire := false
    netSdb := none
    testParsing := toUInt opt.test_parsing
    more_to_read := false
    diff := true
    calibrate := false
    app_print_limit := 0 }

/-- `Ext::diff_spef`. -/
def diff_spef (W : World) (x : Ext) (opt : DiffOptions) : Run :=
  let u := dbUpdate W x
  if opt.file = "" then
    ⟨some (boolOf 0),
     u.2 ++ [Event.notice "\nplease type in name of the spef file to diff, using -file\n" []],
     u.1⟩
  else
    ⟨some (boolOf 0),
     u.2 ++ [Event.notice "diffing spef %s\n" [FmtArg.str opt.file],
             Event.mkWords opt.file,
             Event.readSPEF (diffArgs opt (parserGet (W.mkWords opt.file) 0))],
     u.1⟩

/-- `Ext::calibrate`. -/
def calibrate (W : World) (x : Ext) (spef_file db_corner_name : String)
    (corner spef_corner : Int) (m_map : Bool) (upper_limit lower_limit : Double) : Run :=
  let u := dbUpdate W x
  if spef_file = "" then
    ⟨some (boolOf 0),
     u.2 ++ [Event.notice
              "\nplease type in name of the spef file to calibrate, using -spef_file\n" []],
     u.1⟩
  else
    ⟨some (boolOf 0),
     u.2 ++ [Event.notice "calibrate on spef file  %s\n" [FmtArg.str spef_file],
             Event.mkWords spef_file,
             Event.calibrate (parserGet (W.mkWords spef_file) 0) m_map upper_limit lower_limit
               db_corner_name corner spef_corner],
     u.1⟩

/-- `Ext::match`. -/
def match_spef (W : World) (x : Ext) (spef_file db_corner_name : String)
    (corner spef_corner : Int) (m_map : Bool) : Run :=
  let u := dbUpdate W x
  if spef_file = "" then
    ⟨some (boolOf 0),
     u.2 ++ [Event.notice
              "\nplease type in name of the spef file to match, using -spef_file\n" []],
     u.1⟩
  else
    ⟨some (boolOf 0),
     u.2 ++ [Event.notice "match on spef file  %s\n" [FmtArg.str spef_file],
             Event.mkWords spef_file,
             Event.matchSpef (parserGet (W.mkWords spef_file) 0) m_map db_corner_name
               corner spef_corner],
     u.1⟩

/-- Read options with every flag off, every text absent and every number 0. -/
def ReadSpefOpts.zero : ReadSpefOpts :=
  { file := none, net := none, force := false, use_ids := false, r_conn := false,
    N := none, r_cap := false, r_cc_cap := false, r_res := false, cc_threshold := 0,
    cc_ground_factor := 0, length_unit := 0, m_map := false,
    no_cap_num_collapse := false, cap_node_map_file := none, log := false, corner := 0,
    db_corner_name := none, calibrate_base_corner := none, spef_corner := 0,
    fix_loop := 0, keep_loaded_corner := false, stamp_wire := false, test_parsing := 0,
    more_to_read := false, app_print_limit := 0 }

/-- Diff options with every flag off, every text absent or empty and every number 0. -/
def DiffOptions.zero : DiffOptions :=
  { file := "", net := none, use_ids := false, r_conn := false, r_cap := false,
    r_cc_cap := false, r_res := false, m_map := false, log := false, ext_corner := 0,
    low_guard := 0, upper_guard := 0, exclude_net_subword := none, net_subword := none,
    rc_stats_file := none, db_corner_name := none, spef_corner := 0, test_parsing := 0 }

/-! ## Reading a trace -/

/-- The engine calls of the extraction pipeline: installation of the LEF model,
lookup or construction of a search index, RC generation of the target block and
of a child, assembly, and the total-capacitance report. -/
def Event.isStep : Event → Bool
  | .addExtModel => true
  | .getNetSdb _ => true
  | .makeNetSdb _ => true
  | .makeBlockRCsegs _ _ _ => true
  | .tileMakeBlockRCsegs _ _ _ => true
  | .assemblyExt _ _ => true
  | .reportTotalCap _ _ _ _ _ _ => true
  | _ => false

def Event.isAddExtModel : Event → Bool
  | .addExtModel => true
  | _ => false

/-- RC generation of the target block. -/
def Event.isMakeBlockRCsegs : Event → Bool
  | .makeBlockRCsegs _ _ _ => true
  | _ => false

/-- RC generation of a child block. -/
def Event.isTileRC : Event → Bool
  | .tileMakeBlockRCsegs _ _ _ => true
  | _ => false

def Event.isAssemblyExt : Event → Bool
  | .assemblyExt _ _ => true
  | _ => false

def Event.isReportTotalCap : Event → Bool
  | .reportTotalCap _ _ _ _ _ _ => true
  | _ => false

/-- Lookup or construction of a search index. -/
def Event.isSdbAcquire : Event → Bool
  | .getNetSdb _ => true
  | .makeNetSdb _ => true
  | _ => false

/-- The engine calls of the SPEF input operations. -/
def Event.isSpefCall : Event → Bool
  | .readSPEF _ => true
  | .readSPEFincr _ => true
  | .calibrate _ _ _ _ _ _ _ => true
  | .matchSpef _ _ _ _ _ => true
  | _ => false

/-- The pipeline calls of a trace, in program order. -/
def steps (tr : List Event) : List Event := tr.filter Event.isStep

/-- The tiling degrees that `Ext::extract` tests for. -/
def recognizedTiling (d : Nat) : Bool :=
  d = 1 || d = 7 || d = 8 || d = 9 || d = 10 || d = 77 || d = 777

/-- The report call of line 704 for the block `top`. -/
def reportOf (top : dbBlock) : Event :=
  Event.reportTotalCap (top.name ++ ".totCap") true false 1 none none

/-- The arguments of the RC generation of a child: those of the target block
with mode code 0 (line 670). -/
def tileRCArgs (W : World) (opts : ExtractOptions) : RCArgs :=
  { mainRCArgs W opts with extdbg := 0 }

/-- The pipeline calls of the index lookup of lines 550-567. -/
def sdbSteps (W : World) (ccBandTracks : Int) : List Event :=
  steps (acquireSdb W ccBandTracks).events

/-! ## The pipeline calls of `extract` -/

/-- The pipeline calls of the extraction loop over the children `cs`: calls
with a non-zero result, ended by the end of the list (`ok = true`) or by the
first call that returns 0 (`ok = false`). -/
inductive TileSteps (args : RCArgs) : List dbBlock → Bool → List Event → Prop where
  | done : TileSteps args [] true []
  | fail (blk : dbBlock) (rest : List dbBlock) :
      TileSteps args (blk :: rest) false [Event.tileMakeBlockRCsegs blk args 0]
  | next (blk : dbBlock) (rest : List dbBlock) (r : Nat) (ok : Bool) (S : List Event) :
      r ≠ 0 → TileSteps args rest ok S →
      TileSteps args (blk :: rest) ok (Event.tileMakeBlockRCsegs blk args r :: S)

/-- The pipeline calls of lines 699-705 and the status of a run that gets there. -/
def FlatTail (opts : ExtractOptions) (top : dbBlock) (st : Option Bool) (S : List Event) :
    Prop :=
  (st = none ∧ opts.power_grid = false ∧ ¬ (top.name.utf8ByteSize + 8 ≤ 500) ∧ S = [])
  ∨ (st = some (boolOf TCL_OK) ∧ opts.power_grid = true ∧ S = [])
  ∨ (st = some (boolOf TCL_OK) ∧ opts.power_grid = false
      ∧ top.name.utf8ByteSize + 8 ≤ 500 ∧ S = [reportOf top])

/-- The pipeline calls of lines 631-705 and the status of a run that gets there. -/
def HierShape (W : World) (opts : ExtractOptions) (top : dbBlock) (st : Option Bool)
    (S : List Event) : Prop :=
  ((toUInt opts.tiling = 1 ∨ resolveExtdbg (toUInt opts.tiling) (toUInt opts.test) ≠ 501)
      ∧ FlatTail opts top st S)
  ∨ (toUInt opts.tiling ≠ 1 ∧ resolveExtdbg (toUInt opts.tiling) (toUInt opts.test) = 501
      ∧ st = some (boolOf TCL_ERROR)
      ∧ TileSteps (tileRCArgs W opts) (W.getChildren top) false S)
  ∨ (toUInt opts.tiling ≠ 1 ∧ resolveExtdbg (toUInt opts.tiling) (toUInt opts.test) = 501
      ∧ ∃ T F, TileSteps (tileRCArgs W opts) (W.getChildren top) true T
          ∧ FlatTail opts top st F
          ∧ S = T ++ (W.getChildren top).map (Event.assemblyExt top) ++ F)

/-- The pipeline calls of lines 498-705 and the status of a run that gets there. -/
def MainShape (W : World) (opts : ExtractOptions) (top : dbBlock) (st : Option Bool)
    (S : List Event) : Prop :=
  ∃ res S1, S = sdbSteps W (effectiveBandTracks opts)
                  ++ Event.makeBlockRCsegs top (mainRCArgs W opts) res :: S1
    ∧ ((res = 0 ∧ S1 = [] ∧ st = some (boolOf TCL_ERROR))
        ∨ (res ≠ 0 ∧ HierShape W opts top st S1))

/-- The calls of the extraction loop on the children `cs` that returned the
results `rs`. -/
def tileCalls (args : RCArgs) (cs : List dbBlock) (rs : List Nat) : List Event :=
  List.zipWith (fun blk r => Event.tileMakeBlockRCsegs blk args r) cs rs

/-- The pipeline calls `T` that follow the RC generation of the target block,
and the status of the run, case by case: the RC generation returned 0; no child
loop; the child loop fails; the child loop succeeds. -/
def TailShape (W : World) (opts : ExtractOptions) (top : dbBlock) (st : Option Bool)
    (res : Nat) (T : List Event) : Prop :=
  (res = 0 ∧ T = [] ∧ st = some (boolOf TCL_ERROR))
  ∨ (res ≠ 0
      ∧ (toUInt opts.tiling = 1
          ∨ resolveExtdbg (toUInt opts.tiling) (toUInt opts.test) ≠ 501)
      ∧ FlatTail opts top st T)
  ∨ (res ≠ 0 ∧ toUInt opts.tiling ≠ 1
      ∧ resolveExtdbg (toUInt opts.tiling) (toUInt opts.test) = 501
      ∧ st = some (boolOf TCL_ERROR)
      ∧ ∃ (done : List dbBlock) (blk : dbBlock) (rest : List dbBlock) (rs : List Nat),
          W.getChildren top = done ++ blk :: rest ∧ rs.length = done.length
          ∧ (∀ r ∈ rs, r ≠ 0)
          ∧ T = tileCalls (tileRCArgs W opts) done rs
                  ++ [Event.tileMakeBlockRCsegs blk (tileRCArgs W opts) 0])
  ∨ (res ≠ 0 ∧ toUInt opts.tiling ≠ 1
      ∧ resolveExtdbg (toUInt opts.tiling) (toUInt opts.test) = 501
      ∧ ∃ (rs : List Nat) (F : List Event),
          rs.length = (W.getChildren top).length ∧ (∀ r ∈ rs, r ≠ 0)
          ∧ FlatTail opts top st F
          ∧ T = tileCalls (tileRCArgs W opts) (W.getChildren top) rs
                  ++ (W.getChildren top).map (Event.assemblyExt top) ++ F)

/-- The pipeline calls `S` and the status of a run of `extract` on the block
`top`: either the LEF check fails before any pipeline call, or the calls are
the installation of the LEF model (when requested), the index lookup, the RC
generation of the target block and a tail. -/
def ExtractShape (W : World) (opts : ExtractOptions) (top : dbBlock) (st : Option Bool)
    (S : List Event) : Prop :=
  (opts.lef_rc = true ∧ W.checkLayerResistance = false ∧ st = some (boolOf TCL_ERROR) ∧ S = [])
  ∨ (¬ (opts.lef_rc = true ∧ W.checkLayerResistance = false) ∧ ∃ res T,
      S = (if opts.lef_rc = true then [Event.addExtModel] else [])
            ++ (sdbSteps W (effectiveBandTracks opts)
                ++ Event.makeBlockRCsegs top (mainRCArgs W opts) res :: T)
      ∧ TailShape W opts top st res T)

/-- The sample design with every RC generation succeeding. -/
def sampleWorldOk : World :=
  { sampleWorld with tileMakeBlockRCsegs := fun _ _ _ => 1 }

/-- The sample design with the RC generation of the target block failing. -/
def sampleWorldRCFail : World :=
  { sampleWorld with makeBlockRCsegs := fun _ _ _ => 0 }

/-- The sample design in a build with `ZUI` defined. -/
def sampleWorldZUI : World :=
  { sampleWorld with ZUI := true }

/-- The sample design with the layer-resistance check failing. -/
def sampleWorldNoRes : World :=
  { sampleWorld with checkLayerResistance := false }

/-! ## `Ext::write_spef` -/

/-- The fields of `SpefOptions` read by `Ext::write_spef`; `end_` is the field
`end`. -/
structure SpefOptions where
  file : Option String
  nets : Option String
  N : Option String
  ext_corner_name : Option String
  exclude_cells : Option String
  cap_units : Option String
  res_units : Option String
  end_ : Bool
  net_id : Int
  corner : Int
  debug : Bool
  single_pi : Bool
  use_ids : Bool
  stop_after_map : Bool
  init : Bool
  no_name_map : Bool
  term_junction_xy : Bool
  gz : Bool
  w_clock : Bool
  w_conn : Bool
  w_cap : Bool
  w_cc_cap : Bool
  w_res : Bool
  no_c_num : Bool
  no_backslash : Bool
  flatten : Bool
  parallel : Bool

/-- The arguments of the bulk `writeSPEF` call (lines 787-810) for the value
`initOnly` of the local of that name. -/
def bulkArgs (opts : SpefOptions) (initOnly : Bool) : WriteSPEFArgs :=
  { file := opts.file
    nets := opts.nets
    useIds := opts.use_ids
    no_name_map := opts.no_name_map
    N := opts.N
    term_junction_xy := opts.term_junction_xy
    exclude_cells := opts.exclude_cells
    cap_units := opts.cap_units
    res_units := opts.res_units
    gz := opts.gz
    stop := opts.stop_after_map
    w_clock := opts.w_clock
    w_conn := opts.w_conn
    w_cap := opts.w_cap
    w_cc_cap := opts.w_cc_cap
    w_res := opts.w_res
    no_c_num := opts.no_c_num
    initOnly := initOnly
    single_pi := opts.single_pi
    no_backslash := opts.no_backslash
    corner := opts.corner
    name := opts.ext_corner_name
    flatten := opts.flatten
    parallel := opts.parallel }

/-- `Ext::write_spef`.  The `if` of line 784 has no braces: it governs the
start notice of line 785 only, and the assignment of line 786 to `initOnly`
is made on every bulk write. -/
def write_spef (W : World) (x : Ext) (opts : SpefOptions) : Run :=
  let u := dbUpdate W x
  if opts.end_ then
    ⟨some (boolOf 0), u.2 ++ [Event.writeSPEFend true], u.1⟩
  else
    let netId := toUInt opts.net_id
    if netId > 0 then
      ⟨some (boolOf 0),
       u.2 ++ [Event.writeSPEFnet netId opts.single_pi opts.debug opts.corner
                opts.ext_corner_name],
       u.1⟩
    else
      let initOnly := opts.init
      let startNotice := if !initOnly then [Event.notice "Writing SPEF ...\n" []] else []
      let initOnly := opts.parallel && opts.flatten
      ⟨some (boolOf 0),
       u.2 ++ startNotice
          ++ [Event.writeSPEF (bulkArgs opts initOnly),
              Event.notice "Finished writing SPEF ...\n" []],
       u.1⟩

/-- The engine write calls of `write_spef`. -/
def Event.isWriteSPEF : Event → Bool
  | .writeSPEFend _ => true
  | .writeSPEFnet _ _ _ _ _ => true
  | .writeSPEF _ => true
  | _ => false

/-- Write options with every flag off, every text absent and every number 0. -/
def SpefOptions.zero : SpefOptions :=
  { file := none, nets := none, N := none, ext_corner_name := none, exclude_cells := none,
    cap_units := none, res_units := none, end_ := false, net_id := 0, corner := 0,
    debug := false, single_pi := false, use_ids := false, stop_after_map := false,
    init := false, no_name_map := false, term_junction_xy := false, gz := false,
    w_clock := false, w_conn := false, w_cap := false, w_cc_cap := false, w_res := false,
    no_c_num := false, no_backslash := false, flatten := false, parallel := false }

/-! ## Corners: `define_derived_corner`, `get_ext_db_corner` -/

/-- Modelled from the spec: a corner of the corner table of the engine
(`extMain`, whose code is not part of src/).  A corner has a unique, non-empty
name and an integer index into the extraction-model table; a derived corner
also has three scale factors (resistance, coupling and ground capacitance). -/
structure extCorner where
  name : String
  model : Nat
  scale : Option (Double × Double × Double)
  deriving DecidableEq, Repr

/-- Modelled from the spec: `extMain::getDbCornerModel`, the lookup that
"resolves" a base corner name "to a model": the model index of the corner
of that name, and a negative index for a name that is not defined. -/
def getDbCornerModel (table : List extCorner) (name : String) : Int :=
  match table.find? (fun k => k.name = name) with
  | some k => (k.model : Int)
  | none => -1

/-- Modelled from the spec: `extMain::addRCCornerScaled`
(`defineDerivedCorner(name, modelIndex, resFactor, ccFactor, gndcFactor) ->
name|null`).  "The referenced base corner must already exist": when no corner
of the table has the model index the call returns null and the table is left
as it is; otherwise a scaled corner is added after the existing ones
("derivation does not mutate the base corner") and its name is returned. -/
def addRCCornerScaled (table : List extCorner) (name : String) (model : Int)
    (res_factor cc_factor gndc_factor : Double) : Option String × List extCorner :=
  if table.any (fun k => (k.model : Int) = model) then
    (some name, table ++ [⟨name, model.toNat, some (res_factor, cc_factor, gndc_factor)⟩])
  else
    (none, table)

/-- `Ext::define_derived_corner`, run on the corner table `table` of the
engine; returns the run and the corner table after it. -/
def define_derived_corner (W : World) (x : Ext) (table : List extCorner)
    (name process_corner_name : String) (res_factor cc_factor gndc_factor : Double) :
    Run × List extCorner :=
  let u := dbUpdate W x
  if process_corner_name = "" then
    (⟨some (boolOf TCL_ERROR),
      u.2 ++ [Event.warning "the original process corner name is required\n" []], u.1⟩,
     table)
  else
    let model := getDbCornerModel table process_corner_name
    let r := addRCCornerScaled table name model res_factor cc_factor gndc_factor
    let t := u.2 ++ [Event.getDbCornerModel process_corner_name model,
                     Event.addRCCornerScaled name model res_factor cc_factor gndc_factor r.1]
    match r.1 with
    | some cornerName =>
      (⟨some (boolOf TCL_OK),
        t ++ [Event.notice "Defined Derived Extraction corner %s\n" [FmtArg.str cornerName]],
        u.1⟩, r.2)
    | none => (⟨some (boolOf TCL_ERROR), t, u.1⟩, r.2)

/-- `Ext::get_ext_db_corner`: the run and the value left in the reference
parameter `index`. -/
def get_ext_db_corner (W : World) (x : Ext) (name : String) : Run × Int :=
  let u := dbUpdate W x
  let index := W.getDbCornerIndex name
  let t := u.2 ++ [Event.getDbCornerIndex name index]
  if index < 0 then
    (⟨some (boolOf TCL_OK),
      t ++ [Event.warning "extraction corner %s not found\n" [FmtArg.str name]], u.1⟩, index)
  else
    (⟨some (boolOf TCL_OK), t, u.1⟩, index)

/-- A corner table with the process corner "typical" on model 0. -/
def sampleCorners : List extCorner := [⟨"typical", 0, none⟩]

/-- The sample design with the corner "typical" at index 0 of the engine. -/
def sampleWorldCorners : World :=
  { sampleWorld with getDbCornerIndex := fun n => if n = "typical" then 0 else -1 }

/-! ## `Ext::net_stats` -/

/-- The updates of lines 1169-1180 on the limits record after `reset`, in
program order.  The parameters `seg_cnt` and `branch_len` of `net_stats` are
not read by any of them. -/
def netStatsLimits (tcap ccap ratio_cap res len met_cnt wire_cnt via_cnt term_cnt bterm_cnt
    bbox : String) : List LimitUpdate :=
  [LimitUpdate.update_double "_tcap" tcap,
   LimitUpdate.update_double "_ccap" ccap,
   LimitUpdate.update_double "_cc2tcap" ratio_cap,
   LimitUpdate.update_double "_res" res,
   LimitUpdate.update_int "_len" len (some 1000),
   LimitUpdate.update_int "_layerCnt" met_cnt none,
   LimitUpdate.update_int "_wCnt" wire_cnt none,
   LimitUpdate.update_int "_vCnt" via_cnt none,
   LimitUpdate.update_int "_termCnt" term_cnt none,
   LimitUpdate.update_int "_btermCnt" bterm_cnt none,
   LimitUpdate.update_bbox bbox]

/-- Lines 1191-1208 of `Ext::net_stats`, run with the stream `fp`; returns the
run and the value of the reference parameter `net_ids`. -/
def netStatsPrint (W : World) (x : Ext) (limits : List LimitUpdate) (fp : FILE)
    (net_ids : List Int) (tr : List Event) : Run × List Int :=
  match W.getBlock with
  | none =>
    (⟨some (boolOf TCL_OK), tr ++ [Event.warning "There is no extracted block\n" []], x⟩,
     net_ids)
  | some block =>
    let r := W.printNetStats fp block limits
    (⟨some (boolOf TCL_OK),
      tr ++ [Event.printNetStats fp block limits false false true r.1 r.2,
             Event.notice "%d nets found\n" [FmtArg.int r.1]],
      x⟩, r.2)

/-- Lines 1182-1208 of `Ext::net_stats` for the pointer `filename`: `none` is the
null pointer, for which the stream stays `stdout`. -/
def netStatsOpen (W : World) (x : Ext) (limits : List LimitUpdate) (filename : Option String)
    (net_ids : List Int) (tr : List Event) : Run × List Int :=
  let fp := FILE.stdout
  match filename with
  | some name =>
    match W.fopen name with
    | none =>
      (⟨some (boolOf TCL_OK),
        tr ++ [Event.fopen name "w" none,
               Event.warning "Cannot open file %s\n" [FmtArg.str name]], x⟩,
       net_ids)
    | some h =>
      netStatsPrint W x limits (FILE.opened h) net_ids (tr ++ [Event.fopen name "w" (some h)])
  | none => netStatsPrint W x limits fp net_ids tr

/-- `Ext::net_stats`; returns the run and the value of the reference parameter
`net_ids`.  The pointer `filename` is `file.c_str()`, which is never null. -/
def net_stats (W : World) (x : Ext) (net_ids : List Int)
    (tcap ccap ratio_cap res len met_cnt wire_cnt via_cnt seg_cnt term_cnt bterm_cnt file bbox
      branch_len : String) : Run × List Int :=
  let _unused := (seg_cnt, branch_len)
  let u := dbUpdate W x
  let limits := netStatsLimits tcap ccap ratio_cap res len met_cnt wire_cnt via_cnt term_cnt
    bterm_cnt bbox
  let t0 := u.2 ++ [Event.limitsReset] ++ limits.map Event.limitsUpdate
  netStatsOpen W u.1 limits (some file) net_ids t0

/-- The calls of `printNetStats` in a trace. -/
def Event.isPrintNetStats : Event → Bool
  | .printNetStats _ _ _ _ _ _ _ _ => true
  | _ => false

/-- The calls of `fopen` in a trace. -/
def Event.isFopen : Event → Bool
  | .fopen _ _ _ => true
  | _ => false

/-- The calls of `fclose` in a trace. -/
def Event.isFclose : Event → Bool
  | .fclose _ => true
  | _ => false

/-- The sample design with a file system on which every file but the one of
empty name can be opened (handle 3), and an engine that finds the nets 1 and 2. -/
def sampleWorldFiles : World :=
  { sampleWorld with
    fopen := fun n => if n = "" then none else some 3
    printNetStats := fun _ _ _ => (2, [1, 2]) }

/-- The design of `sampleWorldFiles` without an extracted block. -/
def sampleWorldNoBlock : World :=
  { sampleWorldFiles with getBlock := none }

/-! ## Binding to the database: `bench_wires`, `set_block`, sequences of calls -/

/-- The fields of `BenchWiresOptions` read by `Ext::bench_wires`. -/
structure BenchWiresOptions where
  dir : Option String
  block : Option String
  met_cnt : Int
  met : Int
  over_dist : Int
  under_dist : Int
  over_met : Int
  under_met : Int
  len : Int
  cnt : Int
  Over : Bool
  over_under : Bool
  default_lef_rules : Bool
  nondefault_lef_rules : Bool
  ddd : Bool
  multiple_widths : Bool
  write_to_solver : Bool
  read_from_solver : Bool
  run_solver : Bool
  diag : Bool
  db_only : Bool
  gen_def_patterns : Bool
  th_list : String
  w_list : String
  s_list : String
  th : String
  w : String
  s : String
  d : String
  grid_list : String

/-- Lines 237-241 of `Ext::bench_wires`: without a chip and without an earlier
binding the engine is bound to the database directly; otherwise `dbUpdate` runs. -/
def benchWiresBind (W : World) (x : Ext) : Ext × List Event :=
  if !x._initWithChip && !W.getChip then
    (x, [Event.setDB])
  else
    dbUpdate W x

/-- Lines 245-277: the options that `bench_wires` copies, before the tables
are read. -/
def benchWiresOpt (bwo : BenchWiresOptions) : extMainOptions :=
  let opt : extMainOptions :=
    { _topDir := bwo.dir
      _met_cnt := bwo.met_cnt
      _met := bwo.met
      _overDist := bwo.over_dist
      _underDist := bwo.under_dist
      _overMet := bwo.over_met
      _over := bwo.Over
      _underMet := bwo.under_met
      _overUnder := bwo.over_under
      _len := 1000 * bwo.len
      _wireCnt := bwo.cnt
      _name := bwo.block
      _default_lef_rules := bwo.default_lef_rules
      _nondefault_lef_rules := bwo.nondefault_lef_rules
      _3dFlag := bwo.ddd
      _multiple_widths := bwo.multiple_widths
      _write_to_solver := bwo.write_to_solver
      _read_from_solver := bwo.read_from_solver
      _run_solver := bwo.run_solver
      _diag := bwo.diag
      _db_only := bwo.db_only
      _gen_def_patterns := bwo.gen_def_patterns
      _thListFlag := false
      _listsFlag := false
      _wsListFlag := false
      _thicknessTable := []
      _gridTable := []
      _widthTable := []
      _spaceTable := []
      _densityTable := [] }
  if opt._gen_def_patterns then
    { opt with _diag := true, _overUnder := true, _db_only := true, _over := true,
               _underMet := 0 }
  else opt

/-- The calls `mkWords(text)` and `getDoubleArray(table, 0)` on the tokenizer. -/
def readTable (W : World) (text : String) : List Event :=
  [Event.mkWords text, Event.getDoubleArray text (W.getDoubleArray text)]

/-- Lines 290-329: the tables and list flags of the options, with the calls
made on the tokenizer. -/
def benchWiresTables (W : World) (bwo : BenchWiresOptions) (opt : extMainOptions) :
    extMainOptions × List Event :=
  let r1 : extMainOptions × List Event :=
    if bwo.th ≠ "" then
      ({ opt with _thicknessTable := opt._thicknessTable ++ W.getDoubleArray bwo.th_list,
                  _thListFlag := true },
       readTable W bwo.th_list)
    else
      ({ opt with _thicknessTable := opt._thicknessTable ++ W.getDoubleArray bwo.th,
                  _thListFlag := false },
       readTable W bwo.th)
  let o1 := { r1.1 with _listsFlag := false, _wsListFlag := false }
  if o1._default_lef_rules then
    if bwo.grid_list = "" then
      ({ o1 with _gridTable := o1._gridTable ++ [1], _listsFlag := true }, r1.2)
    else
      ({ o1 with _gridTable := o1._gridTable ++ W.getDoubleArray bwo.grid_list,
                 _listsFlag := true },
       r1.2 ++ readTable W bwo.grid_list)
  else if o1._nondefault_lef_rules then
    ({ o1 with _listsFlag := true }, r1.2)
  else if bwo.w_list ≠ "" ∧ bwo.s_list ≠ "" then
    ({ o1 with _listsFlag := true, _wsListFlag := true,
               _widthTable := o1._widthTable ++ W.getDoubleArray bwo.w_list,
               _spaceTable := o1._spaceTable ++ W.getDoubleArray bwo.s_list },
     r1.2 ++ readTable W bwo.w_list ++ readTable W bwo.s_list)
  else
    ({ o1 with _widthTable := o1._widthTable ++ W.getDoubleArray bwo.w,
               _spaceTable := o1._spaceTable ++ W.getDoubleArray bwo.s,
               _thicknessTable := o1._thicknessTable ++ W.getDoubleArray bwo.th,
               _densityTable := o1._densityTable ++ W.getDoubleArray bwo.d },
     r1.2 ++ readTable W bwo.w ++ readTable W bwo.s ++ readTable W bwo.th
        ++ readTable W bwo.d)

/-- `Ext::bench_wires`. -/
def bench_wires (W : World) (x : Ext) (bwo : BenchWiresOptions) : Run :=
  let u := benchWiresBind W x
  let r := benchWiresTables W bwo (benchWiresOpt bwo)
  ⟨some (boolOf TCL_OK), u.2 ++ r.2 ++ [Event.benchWires r.1], u.1⟩

/-- Lines 1042-1047 of `Ext::set_block`: the engine is replaced by a new one,
which is bound to the database and given the block. -/
def setBlockRebind (x : Ext) (block : dbBlock) (tr : List Event) : Run :=
  ⟨some (boolOf 0),
   tr ++ [Event.deleteExt, Event.newExtMain, Event.setDB, Event.setBlock block], x⟩

/-- Lines 1028-1047 of `Ext::set_block`. -/
def setBlockResolve (W : World) (x : Ext) (block_name : String) (block : Option dbBlock)
    (tr : List Event) : Run :=
  match block with
  | some b => setBlockRebind x b tr
  | none =>
    if block_name = "" then
      ⟨some (boolOf TCL_ERROR),
       tr ++ [Event.warning "commnad requires either dbblock or block name\n" []], x⟩
    else if !W.getChip then
      ⟨none, tr, x⟩
    else
      match W.findChild block_name with
      | none =>
        ⟨some (boolOf TCL_ERROR),
         tr ++ [Event.findChild block_name none,
                Event.warning "Cannot find block with master name %s\n"
                  [FmtArg.str block_name]], x⟩
      | some child => setBlockRebind x child (tr ++ [Event.findChild block_name (some child)])

/-- `Ext::set_block`; `block = none` is the null pointer.  With an instance
name the chip and the instance found are dereferenced: a run without a chip or
without the instance is undefined. -/
def set_block (W : World) (x : Ext) (block_name : String) (block : Option dbBlock)
    (inst_name : String) : Run :=
  let u := dbUpdate W x
  if inst_name ≠ "" then
    if !W.getChip then
      ⟨none, u.2, u.1⟩
    else
      match W.findInst inst_name with
      | none => ⟨none, u.2 ++ [Event.findInst inst_name none], u.1⟩
      | some ii =>
        setBlockResolve W u.1 block_name block
          (u.2 ++ [Event.findInst inst_name (some ii),
                   Event.notice "Inst=%s ==> %d %s of Master %d %s"
                     [FmtArg.str inst_name, FmtArg.int ii.id, FmtArg.str ii.name,
                      FmtArg.int ii.masterId, FmtArg.str ii.masterName]])
  else
    setBlockResolve W u.1 block_name block u.2

/-- A call of a public entry point of `Ext`.  `other` stands for every entry
point but `bench_wires` and `set_block` (`load_model`, `read_process`,
`rules_gen`, `metal_rules_gen`, `write_rules`, `get_ext_metal_count`,
`bench_net`, `run_solver`, `bench_verilog`, `clean`, `define_process_corner`,
`define_derived_corner`, `delete_corners`, `get_corners`, `read_qcap`,
`get_ext_db_corner`, `assembly`, `flatten`, `extract`, `adjust_rc`,
`init_incremental_spef`, `export_sdb`, `write_spef_nets`, `write_spef`,
`independent_spef_corner`, `read_spef`, `diff_spef`, `calibrate`, `match`,
`report_total_cap`, `report_total_cc`, `dump`, `count`, `rc_tree`,
`net_stats`): each of them starts with `dbUpdate()` and makes no other call of
`setDB` on the engine `_ext` (the child loop of `extract` binds the engines it
creates for the child blocks, the event `tileSetDB` of its model). -/
inductive Call where
  | bench_wires (bwo : BenchWiresOptions)
  | set_block (block_name : String) (block : Option dbBlock) (inst_name : String)
  | other (entry : String)

def Call.isSetBlock : Call → Bool
  | .set_block _ _ _ => true
  | _ => false

def Call.isBenchWires : Call → Bool
  | .bench_wires _ => true
  | _ => false

/-- One call on the state `x`: the state after the call and the trace of the
call.  For `other` the calls that follow `dbUpdate()` are gathered in one
`body` event. -/
def Call.run (W : World) (x : Ext) : Call → Ext × List Event
  | .bench_wires bwo =>
    ((OpenRCX.bench_wires W x bwo).ext, (OpenRCX.bench_wires W x bwo).trace)
  | .set_block block_name block inst_name =>
    ((OpenRCX.set_block W x block_name block inst_name).ext,
     (OpenRCX.set_block W x block_name block inst_name).trace)
  | .other entry => ((dbUpdate W x).1, (dbUpdate W x).2 ++ [Event.body entry])

/-- A sequence of calls, each made in the world it finds, from the state `x`:
the world, the call and the trace of every call. -/
def runCalls : Ext → List (World × Call) → List (World × Call × List Event)
  | _, [] => []
  | x, (W, c) :: rest => (W, c, (Call.run W x c).2) :: runCalls (Call.run W x c).1 rest

/-- Whether a call was made with a chip present and began by invoking `setDB`:
the lazy bind of `dbUpdate()`, which is the first statement of the entry
points that run it. -/
def boundWithChip (e : World × Call × List Event) : Bool :=
  e.1.getChip && decide (e.2.2.head? = some Event.setDB)

/-- The state of `Ext` after its constructor. -/
def Ext.new : Ext := ⟨false⟩

/-- The sample database before a design is loaded. -/
def sampleWorldNoChip : World :=
  { sampleWorld with getChip := false, getBlock := none }

/-- Options of `bench_wires` with every flag off, every text absent or empty
and every number 0. -/
def BenchWiresOptions.zero : BenchWiresOptions :=
  { dir := none, block := none, met_cnt := 0, met := 0, over_dist := 0, under_dist := 0,
    over_met := 0, under_met := 0, len := 0, cnt := 0, Over := false, over_under := false,
    default_lef_rules := false, nondefault_lef_rules := false, ddd := false,
    multiple_widths := false, write_to_solver := false, read_from_solver := false,
    run_solver := false, diag := false, db_only := false, gen_def_patterns := false,
    th_list := "", w_list := "", s_list := "", th := "", w := "", s := "", d := "",
    grid_list := "" }

/-- The state of `Ext` after a sequence of calls. -/
def endState : Ext → List (World × Call) → Ext
  | x, [] => x
  | x, (W, c) :: rest => endState (Call.run W x c).1 rest

theorem steps_append (a b : List Event) : steps (a ++ b) = steps a ++ steps b := by
  simp [steps]

theorem steps_dbUpdate (W : World) (x : Ext) : steps (dbUpdate W x).2 = [] := by
  unfold dbUpdate
  split <;> simp [steps, Event.isStep]

theorem steps_rcNetGenLoop (W : World) (ns : List Nat) :
    ∀ (cnt : Nat) (tr : List Event), steps (rcNetGenLoop W ns cnt tr).2 = steps tr := by
  induction ns with
  | nil => intro cnt tr; rfl
  | cons n rest ih =>
    intro cnt tr
    simp only [rcNetGenLoop]
    rw [ih]
    simp [steps, Event.isStep]

theorem steps_tiling777 (W : World) (top : dbBlock) (tr : List Event) :
    steps (tiling777 W top tr) = steps tr := by
  unfold tiling777
  simp only [steps_append, steps_rcNetGenLoop]
  simp [steps, Event.isStep]

theorem steps_listTiles (cs : List dbBlock) : steps (listTiles cs) = [] := by
  simp [listTiles, steps, Event.isStep, List.filter_eq_nil_iff]

theorem steps_releaseSdb (W : World) (opts : ExtractOptions) (c : Int) (s : SdbState)
    (d : Nat) : steps (releaseSdb W opts c s d) = [] := by
  unfold releaseSdb
  cases s.dbNetSdb <;> cases W.ZUI <;> cases W.rlog <;> cases opts.rlog <;>
    cases s.extSdb <;> by_cases h1 : c = 0 <;> by_cases h2 : d = 99 <;>
    simp [steps, Event.isStep, h1, h2]

theorem steps_assembleTiles (top : dbBlock) (cs : List dbBlock) :
    steps (assembleTiles top cs) = cs.map (Event.assemblyExt top) := by
  induction cs with
  | nil => rfl
  | cons c rest ih =>
    have h : assembleTiles top (c :: rest)
        = [Event.notice "Assembly of block %s...\n" [FmtArg.str c.name],
           Event.assemblyExt top c] ++ assembleTiles top rest := by
      simp [assembleTiles]
    rw [h, steps_append, ih]
    simp [steps, Event.isStep]

theorem steps_extractTiles (W : World) (args : RCArgs) (cs : List dbBlock) :
    ∀ tr : List Event, ∃ S, steps (extractTiles W args cs tr).2 = steps tr ++ S
      ∧ TileSteps args cs (extractTiles W args cs tr).1 S := by
  induction cs with
  | nil => intro tr; exact ⟨[], by simp [extractTiles], TileSteps.done⟩
  | cons c rest ih =>
    intro tr
    simp only [extractTiles]
    split
    · next h =>
      refine ⟨[Event.tileMakeBlockRCsegs c args 0], ?_, TileSteps.fail c rest⟩
      simp [steps, Event.isStep, h]
    · next h =>
      obtain ⟨S, hS, hT⟩ := ih (tr ++ [Event.notice "Extacting block %s...\n" [FmtArg.str c.name],
          Event.newExtMain, Event.tileSetDB, Event.tileSetBlock c]
          ++ [Event.tileMakeBlockRCsegs c args (W.tileMakeBlockRCsegs
            (tr ++ [Event.notice "Extacting block %s...\n" [FmtArg.str c.name],
              Event.newExtMain, Event.tileSetDB, Event.tileSetBlock c]) c args)])
      refine ⟨_ :: S, ?_, TileSteps.next c rest _ _ S h hT⟩
      rw [hS]
      simp [steps, Event.isStep]

theorem steps_nil : steps [] = [] := rfl

theorem steps_cons (e : Event) (l : List Event) :
    steps (e :: l) = if e.isStep = true then e :: steps l else steps l := by
  simp [steps, List.filter_cons]

theorem steps_extractFinish (W : World) (x : Ext) (opts : ExtractOptions) (top : dbBlock)
    (tr : List Event) :
    ∃ S, steps (extractFinish W x opts top tr).trace = steps tr ++ S
      ∧ FlatTail opts top (extractFinish W x opts top tr).status S := by
  unfold extractFinish
  by_cases hp : opts.power_grid = true
  · refine ⟨[], ?_, Or.inr (Or.inl ?_)⟩
    · simp [hp, steps_append, steps_releaseSdb, steps_cons, steps_nil, Event.isStep]
    · simp [hp, TCL_OK]
  · simp only [Bool.not_eq_true] at hp
    by_cases hn : top.name.utf8ByteSize + 8 ≤ 500
    · refine ⟨[reportOf top], ?_, Or.inr (Or.inr ?_)⟩
      · simp [hp, hn, steps_append, steps_releaseSdb, steps_cons, steps_nil, Event.isStep,
          reportOf]
      · simp [hp, hn, TCL_OK]
    · refine ⟨[], ?_, Or.inl ?_⟩
      · simp [hp, hn]
      · simp [hp, hn]

theorem steps_extractHier (W : World) (x : Ext) (opts : ExtractOptions) (top : dbBlock)
    (tr : List Event) :
    ∃ S, steps (extractHier W x opts top tr).trace = steps tr ++ S
      ∧ HierShape W opts top (extractHier W x opts top tr).status S := by
  unfold extractHier
  by_cases h1 : toUInt opts.tiling = 1
  · obtain ⟨S, hS, hF⟩ := steps_extractFinish W x opts top (tr ++ listTiles (W.getChildren top))
    refine ⟨S, ?_, Or.inl ⟨Or.inl h1, ?_⟩⟩
    · simp only [h1, if_true]
      rw [hS, steps_append, steps_listTiles, List.append_nil]
    · simpa [h1] using hF
  · by_cases h5 : resolveExtdbg (toUInt opts.tiling) (toUInt opts.test) = 501
    · obtain ⟨T, hT, hTS⟩ := steps_extractTiles W (tileRCArgs W opts) (W.getChildren top) tr
      simp only [h1, h5, if_true, if_false]
      have hargs : { mainRCArgs W opts with extdbg := 0 } = tileRCArgs W opts := rfl
      rw [hargs]
      cases hok : (extractTiles W (tileRCArgs W opts) (W.getChildren top) tr).1
      · rw [hok] at hTS
        refine ⟨T, ?_, Or.inr (Or.inl ⟨h1, h5, ?_, hTS⟩)⟩
        · simpa using hT
        · simp
      · rw [hok] at hTS
        obtain ⟨F, hF, hFT⟩ := steps_extractFinish W x opts top
          ((extractTiles W (tileRCArgs W opts) (W.getChildren top) tr).2
            ++ assembleTiles top (W.getChildren top))
        refine ⟨T ++ (W.getChildren top).map (Event.assemblyExt top) ++ F, ?_,
          Or.inr (Or.inr ⟨h1, h5, T, F, hTS, ?_, rfl⟩)⟩
        · simp only [if_true]
          rw [hF, steps_append, hT, steps_assembleTiles]
          simp
        · simpa using hFT
    · obtain ⟨S, hS, hF⟩ := steps_extractFinish W x opts top tr
      refine ⟨S, ?_, Or.inl ⟨Or.inr h5, ?_⟩⟩
      · simpa [h1, h5] using hS
      · simpa [h1, h5] using hF

theorem steps_extractSetup (W : World) (opts : ExtractOptions) (top : dbBlock)
    (tr : List Event) :
    steps (extractSetup W opts top tr) = steps tr ++ sdbSteps W (effectiveBandTracks opts) := by
  have ht1 : steps (tr
      ++ (if (W.ZUI && opts.power_grid) = true then
            [Event.initSearchBlock top, Event.setPowerExtOptions]
          else [])
      ++ [Event.set_debug_nets opts.debug_net, Event.skip_via_wires opts.skip_via_wires,
          Event.set_lef_res opts.lef_res]
      ++ (acquireSdb W (effectiveBandTracks opts)).events)
      = steps tr ++ sdbSteps W (effectiveBandTracks opts) := by
    simp only [steps_append, sdbSteps]
    split <;> simp [steps_cons, steps_nil, Event.isStep]
  unfold extractSetup
  simp only []
  split
  · rw [steps_tiling777, ht1]
  · exact ht1

theorem steps_extractMain (W : World) (x : Ext) (opts : ExtractOptions) (top : dbBlock)
    (tr : List Event) :
    ∃ S, steps (extractMain W x opts top tr).trace = steps tr ++ S
      ∧ MainShape W opts top (extractMain W x opts top tr).status S := by
  by_cases h0 : W.makeBlockRCsegs (extractSetup W opts top tr) top (mainRCArgs W opts) = 0
  · refine ⟨_, ?_, 0, [], rfl, Or.inl ⟨rfl, rfl, ?_⟩⟩
    · simp only [extractMain, h0, if_true]
      rw [steps_append, steps_extractSetup]
      simp [steps_cons, steps_nil, Event.isStep]
    · simp only [extractMain, h0, if_true]
  · obtain ⟨S1, hS1, hH⟩ := steps_extractHier W x opts top
      (extractSetup W opts top tr ++ [Event.makeBlockRCsegs top (mainRCArgs W opts)
        (W.makeBlockRCsegs (extractSetup W opts top tr) top (mainRCArgs W opts))])
    refine ⟨_, ?_, _, S1, rfl, Or.inr ⟨h0, ?_⟩⟩
    · simp only [extractMain, h0, if_false]
      rw [hS1, steps_append, steps_extractSetup]
      simp [steps_cons, steps_nil, Event.isStep]
    · simpa only [extractMain, h0, if_false] using hH

/-- The pipeline calls and the status of a run of `extract` on a block `top`:
either the LEF check ends the run before any pipeline call, or the calls are
the installation of the LEF model (when requested) followed by `MainShape`. -/
theorem steps_extract (W : World) (x : Ext) (opts : ExtractOptions) (top : dbBlock)
    (hb : W.getBlock = some top) :
    (opts.lef_rc = true ∧ W.checkLayerResistance = false
      ∧ (extract W x opts).status = some (boolOf TCL_ERROR)
      ∧ steps (extract W x opts).trace = [])
    ∨ (¬ (opts.lef_rc = true ∧ W.checkLayerResistance = false)
      ∧ ∃ S, steps (extract W x opts).trace
              = (if opts.lef_rc = true then [Event.addExtModel] else []) ++ S
          ∧ MainShape W opts top (extract W x opts).status S) := by
  unfold extract
  simp only [hb]
  by_cases hl : opts.lef_rc = true
  · by_cases hc : W.checkLayerResistance = true
    · right
      obtain ⟨S, hS, hM⟩ := steps_extractMain W (dbUpdate W x).1 opts top
        ((dbUpdate W x).2 ++ [Event.notice "extracting %s ...\n" [FmtArg.str top.name]]
          ++ [Event.checkLayerResistance true, Event.addExtModel,
              Event.notice "Using LEF RC values to extract!\n" []])
      refine ⟨by simp [hc], S, ?_, ?_⟩
      · simp only [hl, hc, if_true, Bool.not_true, Bool.false_eq_true, if_false]
        rw [hS]
        simp [steps_append, steps_dbUpdate, steps_cons, steps_nil, Event.isStep]
      · simpa [hl, hc] using hM
    · left
      simp only [Bool.not_eq_true] at hc
      refine ⟨hl, hc, ?_, ?_⟩
      · simp [hl, hc]
      · simp [hl, hc, steps_append, steps_dbUpdate, steps_cons, steps_nil, Event.isStep]
  · right
    obtain ⟨S, hS, hM⟩ := steps_extractMain W (dbUpdate W x).1 opts top
      ((dbUpdate W x).2 ++ [Event.notice "extracting %s ...\n" [FmtArg.str top.name]])
    refine ⟨by simp [hl], S, ?_, ?_⟩
    · simp only [hl, if_false, Bool.false_eq_true]
      rw [hS]
      simp [steps_append, steps_dbUpdate, steps_cons, steps_nil, Event.isStep]
    · simpa [hl] using hM

/-- Without a block the run stops at the first dereference of the block. -/
theorem extract_no_block (W : World) (x : Ext) (opts : ExtractOptions)
    (hb : W.getBlock = none) :
    (extract W x opts).status = none ∧ steps (extract W x opts).trace = [] := by
  unfold extract
  simp [hb, steps_dbUpdate]

/-! ### Reading the shapes -/

theorem filter_eq_filter_steps (p : Event → Bool) (hp : ∀ e, p e = true → e.isStep = true)
    (tr : List Event) : tr.filter p = (steps tr).filter p := by
  unfold steps
  rw [List.filter_filter]
  congr 1
  funext e
  cases h : p e
  · simp
  · simp [hp e h]

theorem mem_steps {e : Event} {tr : List Event} :
    e ∈ steps tr ↔ e ∈ tr ∧ e.isStep = true := by
  simp [steps]

theorem isStep_of_isTileRC (e : Event) (h : e.isTileRC = true) : e.isStep = true := by
  cases e <;> simp_all [Event.isTileRC, Event.isStep]

theorem isStep_of_isAssemblyExt (e : Event) (h : e.isAssemblyExt = true) :
    e.isStep = true := by
  cases e <;> simp_all [Event.isAssemblyExt, Event.isStep]

theorem isStep_of_isReportTotalCap (e : Event) (h : e.isReportTotalCap = true) :
    e.isStep = true := by
  cases e <;> simp_all [Event.isReportTotalCap, Event.isStep]

theorem isStep_of_isMakeBlockRCsegs (e : Event) (h : e.isMakeBlockRCsegs = true) :
    e.isStep = true := by
  cases e <;> simp_all [Event.isMakeBlockRCsegs, Event.isStep]

theorem isStep_of_isAddExtModel (e : Event) (h : e.isAddExtModel = true) :
    e.isStep = true := by
  cases e <;> simp_all [Event.isAddExtModel, Event.isStep]

theorem isStep_of_isSdbAcquire (e : Event) (h : e.isSdbAcquire = true) :
    e.isStep = true := by
  cases e <;> simp_all [Event.isSdbAcquire, Event.isStep]

/-- The pipeline calls of the index lookup: none, the lookup alone, or the
lookup followed by the construction. -/
theorem sdbSteps_cases (W : World) (c : Int) :
    (sdbSteps W c = [] ∧ (acquireSdb W c).dbNetSdb = none ∧ (c ≠ 0 ∨ W.ZUI = false))
    ∨ (∃ s, sdbSteps W c = [Event.getNetSdb (some s)] ∧ (acquireSdb W c).dbNetSdb = some s
        ∧ c = 0 ∧ W.ZUI = true)
    ∨ (sdbSteps W c = [Event.getNetSdb none, Event.makeNetSdb W.makeNetSdb]
        ∧ (acquireSdb W c).dbNetSdb = some W.makeNetSdb ∧ c = 0 ∧ W.ZUI = true) := by
  unfold sdbSteps acquireSdb
  by_cases hc : c = 0
  · cases hz : W.ZUI
    · simp [hc, steps_nil]
    · cases hs : W.getNetSdb
      · cases W.rlog <;>
          simp [hc, steps_cons, steps_nil, steps_append, Event.isStep]
      · simp [hc, steps_cons, steps_nil, Event.isStep]
  · simp [hc, steps_nil]

theorem TileSteps.mem {args : RCArgs} {cs : List dbBlock} {ok : Bool} {S : List Event}
    (h : TileSteps args cs ok S) :
    ∀ e ∈ S, ∃ blk r, e = Event.tileMakeBlockRCsegs blk args r ∧ blk ∈ cs := by
  induction h with
  | done => simp
  | fail blk rest => simp
  | next blk rest r ok S _ _ ih =>
    intro e he
    rcases List.mem_cons.1 he with rfl | he
    · exact ⟨blk, r, rfl, by simp⟩
    · obtain ⟨b, r1, h1, h2⟩ := ih e he
      exact ⟨b, r1, h1, List.mem_cons_of_mem _ h2⟩

/-- When the loop runs to the end, every child was extracted, in order, and no
call returned 0. -/
theorem TileSteps.ok_spec {args : RCArgs} {cs : List dbBlock} {S : List Event}
    (h : TileSteps args cs true S) :
    (∃ rs : List Nat, rs.length = cs.length ∧ (∀ r ∈ rs, r ≠ 0)
        ∧ S = List.zipWith (fun blk r => Event.tileMakeBlockRCsegs blk args r) cs rs) := by
  generalize hok : true = ok at h
  induction h with
  | done => exact ⟨[], rfl, by simp, rfl⟩
  | fail blk rest => cases hok
  | next blk rest r ok S hr _ ih =>
    obtain ⟨rs, h1, h2, h3⟩ := ih hok
    refine ⟨r :: rs, by simp [h1], ?_, by simp [h3]⟩
    intro r1 hr1
    rcases List.mem_cons.1 hr1 with rfl | hr1
    · exact hr
    · exact h2 r1 hr1

/-- When the loop is ended by a failure, the failing call is the last one and
the calls before it are those of the children that precede the failing child. -/
theorem TileSteps.fail_spec {args : RCArgs} {cs : List dbBlock} {S : List Event}
    (h : TileSteps args cs false S) :
    ∃ (done : List dbBlock) (blk : dbBlock) (rest : List dbBlock) (rs : List Nat),
      cs = done ++ blk :: rest ∧ rs.length = done.length ∧ (∀ r ∈ rs, r ≠ 0)
      ∧ S = List.zipWith (fun b r => Event.tileMakeBlockRCsegs b args r) done rs
            ++ [Event.tileMakeBlockRCsegs blk args 0] := by
  generalize hok : false = ok at h
  induction h with
  | done => cases hok
  | fail blk rest => exact ⟨[], blk, rest, [], rfl, rfl, by simp, rfl⟩
  | next blk rest r ok S hr _ ih =>
    obtain ⟨done, b, rest1, rs, h1, h2, h3, h4⟩ := ih hok
    refine ⟨blk :: done, b, rest1, r :: rs, by simp [h1], by simp [h2], ?_, by simp [h4]⟩
    intro r1 hr1
    rcases List.mem_cons.1 hr1 with rfl | hr1
    · exact hr
    · exact h3 r1 hr1

theorem extract_shape (W : World) (x : Ext) (opts : ExtractOptions) (top : dbBlock)
    (hb : W.getBlock = some top) :
    ExtractShape W opts top (extract W x opts).status (steps (extract W x opts).trace) := by
  rcases steps_extract W x opts top hb with h | ⟨hl, S, hS, res, S1, hS1, hres⟩
  · exact Or.inl h
  · refine Or.inr ⟨hl, res, S1, by rw [hS, hS1], ?_⟩
    rcases hres with h0 | ⟨h0, hH⟩
    · exact Or.inl h0
    · rcases hH with ⟨hm, hF⟩ | ⟨h1, h5, hst, hT⟩ | ⟨h1, h5, T, F, hT, hF, rfl⟩
      · exact Or.inr (Or.inl ⟨h0, hm, hF⟩)
      · obtain ⟨done, blk, rest, rs, e1, e2, e3, e4⟩ := hT.fail_spec
        exact Or.inr (Or.inr (Or.inl ⟨h0, h1, h5, hst, done, blk, rest, rs, e1, e2, e3, e4⟩))
      · obtain ⟨rs, e1, e2, e3⟩ := hT.ok_spec
        exact Or.inr (Or.inr (Or.inr ⟨h0, h1, h5, rs, F, e1, e2, hF, by rw [e3]; rfl⟩))

theorem mem_tileCalls {args : RCArgs} {cs : List dbBlock} {rs : List Nat} {e : Event}
    (h : e ∈ tileCalls args cs rs) :
    ∃ blk r, e = Event.tileMakeBlockRCsegs blk args r ∧ blk ∈ cs ∧ r ∈ rs := by
  induction cs generalizing rs with
  | nil => simp [tileCalls] at h
  | cons c rest ih =>
    cases rs with
    | nil => simp [tileCalls] at h
    | cons r rs1 =>
      simp only [tileCalls, List.zipWith_cons_cons, List.mem_cons] at h
      rcases h with rfl | h
      · exact ⟨c, r, rfl, by simp, by simp⟩
      · obtain ⟨b, r1, h1, h2, h3⟩ := ih h
        exact ⟨b, r1, h1, List.mem_cons_of_mem _ h2, List.mem_cons_of_mem _ h3⟩

theorem filter_sdbSteps (p : Event → Bool) (hp : ∀ e, e.isSdbAcquire = true → p e = false)
    (W : World) (c : Int) : (sdbSteps W c).filter p = [] := by
  rcases sdbSteps_cases W c with h | ⟨s, h, _⟩ | h
  · simp [h.1]
  · simp [h, hp _ (rfl : (Event.getNetSdb (some s)).isSdbAcquire = true)]
  · simp [h.1, hp _ (rfl : (Event.getNetSdb none).isSdbAcquire = true),
      hp _ (rfl : (Event.makeNetSdb W.makeNetSdb).isSdbAcquire = true)]

theorem filter_tileCalls_nil (p : Event → Bool)
    (hp : ∀ b a r, p (Event.tileMakeBlockRCsegs b a r) = false)
    (args : RCArgs) (cs : List dbBlock) (rs : List Nat) :
    (tileCalls args cs rs).filter p = [] := by
  rw [List.filter_eq_nil_iff]
  intro e he
  obtain ⟨b, r, rfl, _⟩ := mem_tileCalls he
  simp [hp]

theorem filter_tileCalls_self (args : RCArgs) (cs : List dbBlock) (rs : List Nat) :
    (tileCalls args cs rs).filter Event.isTileRC = tileCalls args cs rs := by
  rw [List.filter_eq_self]
  intro e he
  obtain ⟨b, r, rfl, _⟩ := mem_tileCalls he
  rfl

theorem filter_assembly_nil (p : Event → Bool) (hp : ∀ t b, p (Event.assemblyExt t b) = false)
    (top : dbBlock) (cs : List dbBlock) :
    (cs.map (Event.assemblyExt top)).filter p = [] := by
  rw [List.filter_eq_nil_iff]
  intro e he
  obtain ⟨b, _, rfl⟩ := List.mem_map.1 he
  simp [hp]

theorem sdb_not_tile (e : Event) (h : e.isSdbAcquire = true) : e.isTileRC = false := by
  cases e <;> simp_all [Event.isSdbAcquire, Event.isTileRC]

theorem sdb_not_assembly (e : Event) (h : e.isSdbAcquire = true) :
    e.isAssemblyExt = false := by
  cases e <;> simp_all [Event.isSdbAcquire, Event.isAssemblyExt]

theorem sdb_not_report (e : Event) (h : e.isSdbAcquire = true) :
    e.isReportTotalCap = false := by
  cases e <;> simp_all [Event.isSdbAcquire, Event.isReportTotalCap]

theorem sdb_not_rc (e : Event) (h : e.isSdbAcquire = true) :
    e.isMakeBlockRCsegs = false := by
  cases e <;> simp_all [Event.isSdbAcquire, Event.isMakeBlockRCsegs]

theorem sdb_not_model (e : Event) (h : e.isSdbAcquire = true) :
    e.isAddExtModel = false := by
  cases e <;> simp_all [Event.isSdbAcquire, Event.isAddExtModel]

theorem status_ne : boolOf TCL_ERROR ≠ boolOf TCL_OK := by decide

/-- What lines 699-705 add: nothing or the report; the status is never
`TCL_ERROR`; a run that returns `TCL_OK` with the power-grid-only option off
has the report; with the option on there is none. -/
theorem FlatTail.cases {opts : ExtractOptions} {top : dbBlock} {st : Option Bool}
    {S : List Event} (h : FlatTail opts top st S) :
    (S = [] ∨ S = [reportOf top]) ∧ st ≠ some (boolOf TCL_ERROR)
      ∧ (st = some (boolOf TCL_OK) → opts.power_grid = false → S = [reportOf top])
      ∧ (opts.power_grid = true → S = []) := by
  rcases h with ⟨h1, h2, _, h4⟩ | ⟨h1, h2, h3⟩ | ⟨h1, h2, _, h4⟩
  · subst h1 h4
    simp [h2]
  · subst h1 h3
    simp [h2, status_ne.symm]
  · subst h1 h4
    simp [h2, status_ne.symm]

/-- A call of the RC generation of the target block that occurs among the
pipeline calls of a shape is the one call of the shape. -/
theorem rc_mem_shape {W : World} {c : Int} {A T : List Event} {top blk : dbBlock}
    {args a : RCArgs} {res r : Nat}
    (hA : A.filter Event.isMakeBlockRCsegs = [])
    (hT : T.filter Event.isMakeBlockRCsegs = [])
    (h : Event.makeBlockRCsegs blk a r ∈ A ++ (sdbSteps W c
          ++ Event.makeBlockRCsegs top args res :: T)) :
    blk = top ∧ a = args ∧ r = res := by
  have hB := filter_sdbSteps Event.isMakeBlockRCsegs sdb_not_rc W c
  rw [List.filter_eq_nil_iff] at hA hT hB
  simp only [List.mem_append, List.mem_cons] at h
  rcases h with h | h | h | h
  · exact absurd rfl (hA _ h)
  · exact absurd rfl (hB _ h)
  · injection h with h1 h2 h3
    exact ⟨h1, h2, h3⟩
  · exact absurd rfl (hT _ h)

theorem filter_rc_model (b : Bool) :
    (if b = true then [Event.addExtModel] else []).filter Event.isMakeBlockRCsegs = [] := by
  cases b <;> rfl

/-- Filtering the pipeline calls of a shape by a predicate that rejects the
calls made before the child loop leaves the calls of the tail. -/
theorem filter_shape (p : Event → Bool) (hA : p Event.addExtModel = false)
    (hB : ∀ e, e.isSdbAcquire = true → p e = false)
    (hM : ∀ b a r, p (Event.makeBlockRCsegs b a r) = false)
    (W : World) (c : Int) (l : Bool) (top : dbBlock) (args : RCArgs) (res : Nat)
    (T : List Event) :
    ((if l = true then [Event.addExtModel] else [])
      ++ (sdbSteps W c ++ Event.makeBlockRCsegs top args res :: T)).filter p = T.filter p := by
  cases l <;> simp [List.filter_append, List.filter_cons, filter_sdbSteps p hB, hA, hM]

theorem mem_filter_of_mem {p : Event → Bool} {e : Event} {l : List Event} (h : e ∈ l)
    (hp : p e = true) : e ∈ l.filter p :=
  List.mem_filter.2 ⟨h, hp⟩

/-- Splitting a concatenation at an element that does not occur in its first part. -/
theorem split_after {l1 l2 pre post : List Event} {e : Event}
    (h : l1 ++ l2 = pre ++ e :: post) (he : e ∉ l1) :
    ∃ m, pre = l1 ++ m ∧ l2 = m ++ e :: post := by
  rcases List.append_eq_append_iff.1 h with ⟨m, h1, h2⟩ | ⟨m, h1, h2⟩
  · exact ⟨m, h1, h2⟩
  · cases m with
    | nil => exact ⟨[], by simpa using h1.symm, by simpa using h2.symm⟩
    | cons a m1 =>
      simp only [List.cons_append, List.cons.injEq] at h2
      exact absurd (by rw [h1, h2.1]; simp) he

theorem resolveExtdbg_unrecognized (d t : Nat) (h : recognizedTiling d = false) :
    resolveExtdbg d t = t := by
  simp only [recognizedTiling, Bool.or_eq_false_iff, decide_eq_false_iff_not] at h
  obtain ⟨⟨⟨⟨⟨⟨h1, h7⟩, h8⟩, h9⟩, h10⟩, h77⟩, h777⟩ := h
  simp [resolveExtdbg, h1, h7, h8, h9, h10, h77, h777]

/-- The tail of a shape holds no RC generation of the target block. -/
theorem TailShape.filter_rc {W : World} {opts : ExtractOptions} {top : dbBlock}
    {st : Option Bool} {res : Nat} {T : List Event} (h : TailShape W opts top st res T) :
    T.filter Event.isMakeBlockRCsegs = [] := by
  rcases h with ⟨_, hT, _⟩ | ⟨_, _, hF⟩ | ⟨_, _, _, _, done, b, rest, rs, _, _, _, hT⟩
      | ⟨_, _, _, rs, F, _, _, hF, hT⟩
  · subst hT
    rfl
  · rcases hF.cases.1 with h | h <;> subst h <;> rfl
  · subst hT
    simp [List.filter_append, filter_tileCalls_nil, Event.isMakeBlockRCsegs]
  · subst hT
    rcases hF.cases.1 with h | h <;> subst h <;>
      simp [List.filter_append, filter_tileCalls_nil, filter_assembly_nil,
        Event.isMakeBlockRCsegs, reportOf]

/-- A run on a block `top` that gets past the LEF check calls the RC generation
of the target block exactly once, with the arguments `mainRCArgs`. -/
theorem filter_rc_extract (W : World) (x : Ext) (opts : ExtractOptions) (top : dbBlock)
    (hb : W.getBlock = some top)
    (hl : ¬ (opts.lef_rc = true ∧ W.checkLayerResistance = false)) :
    ∃ r, (extract W x opts).trace.filter Event.isMakeBlockRCsegs
          = [Event.makeBlockRCsegs top (mainRCArgs W opts) r] := by
  rw [filter_eq_filter_steps _ isStep_of_isMakeBlockRCsegs]
  rcases extract_shape W x opts top hb with ⟨h1, h2, _⟩ | ⟨_, res, T, hS, hT⟩
  · exact absurd ⟨h1, h2⟩ hl
  · refine ⟨res, ?_⟩
    rw [hS, List.filter_append, filter_rc_model, List.filter_append,
      filter_sdbSteps _ sdb_not_rc, List.filter_cons, hT.filter_rc]
    rfl

/-- Every RC generation of the target block in a run of `extract` is called on
the block of the engine with the arguments `mainRCArgs`. -/
theorem rc_call_args (W : World) (x : Ext) (opts : ExtractOptions) (blk : dbBlock)
    (args : RCArgs) (r : Nat)
    (h : Event.makeBlockRCsegs blk args r ∈ (extract W x opts).trace) :
    W.getBlock = some blk ∧ args = mainRCArgs W opts := by
  have h2 : Event.makeBlockRCsegs blk args r ∈ steps (extract W x opts).trace :=
    mem_steps.2 ⟨h, rfl⟩
  cases hb : W.getBlock with
  | none =>
    rw [(extract_no_block W x opts hb).2] at h2
    simp at h2
  | some top =>
    rcases extract_shape W x opts top hb with ⟨_, _, _, hS⟩ | ⟨_, res, T, hS, hT⟩
    · rw [hS] at h2
      simp at h2
    · rw [hS] at h2
      obtain ⟨h3, h4, _⟩ := rc_mem_shape (filter_rc_model _) hT.filter_rc h2
      exact ⟨by rw [h3], h4⟩

/-- The tail of a shape holds only RC generations of children, assembly calls
and the report. -/
theorem TailShape.filter_nil {W : World} {opts : ExtractOptions} {top : dbBlock}
    {st : Option Bool} {res : Nat} {T : List Event} (h : TailShape W opts top st res T)
    (p : Event → Bool) (hp1 : ∀ b a r, p (Event.tileMakeBlockRCsegs b a r) = false)
    (hp2 : ∀ t b, p (Event.assemblyExt t b) = false)
    (hp3 : ∀ f c r m a b, p (Event.reportTotalCap f c r m a b) = false) :
    T.filter p = [] := by
  have hF : ∀ {F}, FlatTail opts top st F → F.filter p = [] := by
    intro F hF
    rcases hF.cases.1 with h | h <;> subst h <;> simp [reportOf, hp3]
  rcases h with ⟨_, hT, _⟩ | ⟨_, _, hF1⟩ | ⟨_, _, _, _, done, b, rest, rs, _, _, _, hT⟩
      | ⟨_, _, _, rs, F, _, _, hF1, hT⟩
  · subst hT
    rfl
  · exact hF hF1
  · subst hT
    simp [List.filter_append, filter_tileCalls_nil _ hp1, hp1]
  · subst hT
    simp [List.filter_append, filter_tileCalls_nil _ hp1, filter_assembly_nil _ hp2, hF hF1]

/-- Every RC generation of a child in a run of `extract` gets the arguments
`tileRCArgs`. -/
theorem tile_call_args (W : World) (x : Ext) (opts : ExtractOptions) (blk : dbBlock)
    (args : RCArgs) (r : Nat)
    (h : Event.tileMakeBlockRCsegs blk args r ∈ (extract W x opts).trace) :
    args = tileRCArgs W opts := by
  have h2 : Event.tileMakeBlockRCsegs blk args r
      ∈ (steps (extract W x opts).trace).filter Event.isTileRC :=
    mem_filter_of_mem (mem_steps.2 ⟨h, rfl⟩) rfl
  cases hb : W.getBlock with
  | none =>
    rw [(extract_no_block W x opts hb).2] at h2
    simp at h2
  | some top =>
    rcases extract_shape W x opts top hb with ⟨_, _, _, hS⟩ | ⟨_, res, T, hS, hT⟩
    · rw [hS] at h2
      simp at h2
    · rw [hS, filter_shape _ rfl sdb_not_tile (fun _ _ _ => rfl)] at h2
      have h3 := (List.mem_filter.1 h2).1
      have hF : ∀ {st F}, FlatTail opts top st F →
          Event.tileMakeBlockRCsegs blk args r ∉ F := by
        intro st F hF
        rcases hF.cases.1 with h | h <;> subst h <;> simp [reportOf]
      rcases hT with ⟨_, hT, _⟩ | ⟨_, _, hF1⟩ | ⟨_, _, _, _, done, b, rest, rs, _, _, _, hT⟩
          | ⟨_, _, _, rs, F, _, _, hF1, hT⟩
      · subst hT
        simp at h3
      · exact absurd h3 (hF hF1)
      · subst hT
        rcases List.mem_append.1 h3 with h4 | h4
        · obtain ⟨_, _, h5, _⟩ := mem_tileCalls h4
          injection h5
        · simp only [List.mem_singleton] at h4
          injection h4
      · subst hT
        rcases List.mem_append.1 h3 with h4 | h4
        · rcases List.mem_append.1 h4 with h4 | h4
          · obtain ⟨_, _, h5, _⟩ := mem_tileCalls h4
            injection h5
          · obtain ⟨_, _, h5⟩ := List.mem_map.1 h4
            cases h5
        · exact absurd h4 (hF hF1)

theorem filter_spef_dbUpdate (W : World) (x : Ext) :
    (dbUpdate W x).2.filter Event.isSpefCall = [] := by
  unfold dbUpdate
  split <;> rfl

theorem filter_spef_incr (ws : List String) :
    (ws.map (fun w => Event.readSPEFincr (some w))).filter Event.isSpefCall
      = ws.map (fun w => Event.readSPEFincr (some w)) := by
  rw [List.filter_eq_self]
  intro e he
  obtain ⟨w, _, rfl⟩ := List.mem_map.1 he
  rfl

theorem filter_write_dbUpdate (W : World) (x : Ext) :
    (dbUpdate W x).2.filter Event.isWriteSPEF = [] := by
  unfold dbUpdate
  split <;> rfl

theorem mem_dbUpdate (W : World) (x : Ext) (e : Event) (h : e ∈ (dbUpdate W x).2) :
    e = Event.setDB := by
  unfold dbUpdate at h
  split at h <;> simp at h
  exact h

/-- The trace of `net_stats`, case by case. -/
theorem net_stats_trace (W : World) (x : Ext) (net_ids : List Int)
    (tcap ccap ratio_cap res len met_cnt wire_cnt via_cnt seg_cnt term_cnt bterm_cnt file bbox
      branch_len : String) :
    (net_stats W x net_ids tcap ccap ratio_cap res len met_cnt wire_cnt via_cnt seg_cnt
        term_cnt bterm_cnt file bbox branch_len).1.trace
      = (dbUpdate W x).2 ++ [Event.limitsReset]
          ++ (netStatsLimits tcap ccap ratio_cap res len met_cnt wire_cnt via_cnt term_cnt
                bterm_cnt bbox).map Event.limitsUpdate
          ++ [Event.fopen file "w" (W.fopen file)]
          ++ (match W.fopen file, W.getBlock with
              | none, _ => [Event.warning "Cannot open file %s\n" [FmtArg.str file]]
              | some _, none => [Event.warning "There is no extracted block\n" []]
              | some h, some block =>
                [Event.printNetStats (FILE.opened h) block
                    (netStatsLimits tcap ccap ratio_cap res len met_cnt wire_cnt via_cnt
                      term_cnt bterm_cnt bbox) false false true
                    (W.printNetStats (FILE.opened h) block
                      (netStatsLimits tcap ccap ratio_cap res len met_cnt wire_cnt via_cnt
                        term_cnt bterm_cnt bbox)).1
                    (W.printNetStats (FILE.opened h) block
                      (netStatsLimits tcap ccap ratio_cap res len met_cnt wire_cnt via_cnt
                        term_cnt bterm_cnt bbox)).2,
                  Event.notice "%d nets found\n"
                    [FmtArg.int (W.printNetStats (FILE.opened h) block
                      (netStatsLimits tcap ccap ratio_cap res len met_cnt wire_cnt via_cnt
                        term_cnt bterm_cnt bbox)).1]]) := by
  unfold net_stats netStatsOpen netStatsPrint
  cases hf : W.fopen file with
  | none => simp [hf]
  | some h =>
    cases hb : W.getBlock with
    | none => simp [hf, hb]
    | some block => simp [hf, hb]

theorem filter_dbUpdate_nil (p : Event → Bool) (hp : p Event.setDB = false) (W : World)
    (x : Ext) : (dbUpdate W x).2.filter p = [] := by
  rw [List.filter_eq_nil_iff]
  intro e he
  rw [mem_dbUpdate W x e he, hp]
  simp

theorem filter_limits_nil (p : Event → Bool) (hp : ∀ u, p (Event.limitsUpdate u) = false)
    (l : List LimitUpdate) : (l.map Event.limitsUpdate).filter p = [] := by
  rw [List.filter_eq_nil_iff]
  intro e he
  obtain ⟨u, _, rfl⟩ := List.mem_map.1 he
  simp [hp]

/-! ### Binding -/

theorem dbUpdate_flag (W : World) (x : Ext) :
    (dbUpdate W x).1._initWithChip = (x._initWithChip || W.getChip) := by
  unfold dbUpdate
  cases h1 : x._initWithChip <;> cases h2 : W.getChip <;> simp [h1, h2]

theorem dbUpdate_setDB (W : World) (x : Ext) :
    Event.setDB ∈ (dbUpdate W x).2 ↔ (x._initWithChip = false ∧ W.getChip = true) := by
  unfold dbUpdate
  cases h1 : x._initWithChip <;> cases h2 : W.getChip <;> simp [h1, h2]

theorem benchWiresBind_flag (W : World) (x : Ext) :
    (benchWiresBind W x).1._initWithChip = (x._initWithChip || W.getChip) := by
  unfold benchWiresBind dbUpdate
  cases h1 : x._initWithChip <;> cases h2 : W.getChip <;> simp [h1, h2]

theorem benchWiresBind_setDB (W : World) (x : Ext) :
    Event.setDB ∈ (benchWiresBind W x).2 ↔ x._initWithChip = false := by
  unfold benchWiresBind dbUpdate
  cases h1 : x._initWithChip <;> cases h2 : W.getChip <;> simp [h1, h2]

theorem setDB_not_mem_tables (W : World) (bwo : BenchWiresOptions) (opt : extMainOptions) :
    Event.setDB ∉ (benchWiresTables W bwo opt).2 := by
  unfold benchWiresTables
  simp only []
  split_ifs <;> simp [readTable]

theorem bench_wires_setDB (W : World) (x : Ext) (bwo : BenchWiresOptions) :
    Event.setDB ∈ (bench_wires W x bwo).trace ↔ x._initWithChip = false := by
  unfold bench_wires
  simp [setDB_not_mem_tables, benchWiresBind_setDB]

theorem setBlockResolve_ext (W : World) (x : Ext) (block_name : String)
    (block : Option dbBlock) (tr : List Event) :
    (setBlockResolve W x block_name block tr).ext = x := by
  unfold setBlockResolve setBlockRebind
  cases block with
  | some b => rfl
  | none =>
    simp only []
    split_ifs
    · rfl
    · rfl
    · cases W.findChild block_name <;> rfl

theorem setBlockResolve_prefix (W : World) (x : Ext) (block_name : String)
    (block : Option dbBlock) (tr : List Event) (e : Event) (h : e ∈ tr) :
    e ∈ (setBlockResolve W x block_name block tr).trace := by
  unfold setBlockResolve setBlockRebind
  cases block with
  | some b => simp [h]
  | none =>
    simp only []
    split_ifs
    · simp [h]
    · exact h
    · cases W.findChild block_name <;> simp [h]

theorem set_block_ext (W : World) (x : Ext) (block_name : String) (block : Option dbBlock)
    (inst_name : String) :
    (set_block W x block_name block inst_name).ext = (dbUpdate W x).1 := by
  unfold set_block
  simp only []
  split_ifs
  · rfl
  · cases W.findInst inst_name with
    | none => rfl
    | some ii => exact setBlockResolve_ext _ _ _ _ _
  · exact setBlockResolve_ext _ _ _ _ _

theorem set_block_prefix (W : World) (x : Ext) (block_name : String) (block : Option dbBlock)
    (inst_name : String) (e : Event) (h : e ∈ (dbUpdate W x).2) :
    e ∈ (set_block W x block_name block inst_name).trace := by
  unfold set_block
  simp only []
  split_ifs
  · exact h
  · cases W.findInst inst_name with
    | none => simp [h]
    | some ii => exact setBlockResolve_prefix _ _ _ _ _ _ (by simp [h])
  · exact setBlockResolve_prefix _ _ _ _ _ _ h

/-- Every entry point leaves the flag `_initWithChip` set when it was set or a
chip is present, and clear otherwise. -/
theorem run_flag (W : World) (x : Ext) (c : Call) :
    (Call.run W x c).1._initWithChip = (x._initWithChip || W.getChip) := by
  cases c with
  | bench_wires bwo => exact benchWiresBind_flag W x
  | set_block n b i =>
    show (set_block W x n b i).ext._initWithChip = _
    rw [set_block_ext, dbUpdate_flag]
  | other entry => exact dbUpdate_flag W x

theorem dbUpdate_cases (W : World) (x : Ext) :
    ((dbUpdate W x).2 = [Event.setDB] ∧ x._initWithChip = false ∧ W.getChip = true)
    ∨ ((dbUpdate W x).2 = [] ∧ ¬ (x._initWithChip = false ∧ W.getChip = true)) := by
  unfold dbUpdate
  cases h1 : x._initWithChip <;> cases h2 : W.getChip <;> simp [h1, h2]

theorem setBlockResolve_trace (W : World) (x : Ext) (block_name : String)
    (block : Option dbBlock) (tr : List Event) :
    ∃ rest, (setBlockResolve W x block_name block tr).trace = tr ++ rest
      ∧ rest.head? ≠ some Event.setDB := by
  unfold setBlockResolve setBlockRebind
  cases block with
  | some b => exact ⟨_, rfl, by simp⟩
  | none =>
    simp only []
    split_ifs
    · exact ⟨_, rfl, by simp⟩
    · exact ⟨[], by simp, by simp⟩
    · cases W.findChild block_name with
      | none => exact ⟨_, rfl, by simp⟩
      | some child => exact ⟨_, by simp only [List.append_assoc]; rfl, by simp⟩

/-- The trace of `set_block` is that of `dbUpdate()` followed by calls of
which the first is not `setDB`. -/
theorem set_block_trace (W : World) (x : Ext) (block_name : String) (block : Option dbBlock)
    (inst_name : String) :
    ∃ rest, (set_block W x block_name block inst_name).trace = (dbUpdate W x).2 ++ rest
      ∧ rest.head? ≠ some Event.setDB := by
  unfold set_block
  simp only []
  split_ifs
  · exact ⟨[], by simp, by simp⟩
  · cases W.findInst inst_name with
    | none => exact ⟨_, rfl, by simp⟩
    | some ii =>
      obtain ⟨rest, h1, _⟩ := setBlockResolve_trace W (dbUpdate W x).1 block_name block
        ((dbUpdate W x).2 ++ [Event.findInst inst_name (some ii),
          Event.notice "Inst=%s ==> %d %s of Master %d %s"
            [FmtArg.str inst_name, FmtArg.int ii.id, FmtArg.str ii.name,
             FmtArg.int ii.masterId, FmtArg.str ii.masterName]])
      exact ⟨_, by rw [h1, List.append_assoc], by simp⟩
  · exact setBlockResolve_trace W (dbUpdate W x).1 block_name block (dbUpdate W x).2

theorem tables_ne_nil (W : World) (bwo : BenchWiresOptions) (opt : extMainOptions) :
    (benchWiresTables W bwo opt).2.head? ≠ some Event.setDB := by
  unfold benchWiresTables
  simp only []
  split_ifs <;> simp [readTable]

/-- With a chip present, the trace of a call is that of `dbUpdate()` followed
by calls of which the first is not `setDB`. -/
theorem run_trace_chip (W : World) (x : Ext) (c : Call) (hc : W.getChip = true) :
    ∃ rest, (Call.run W x c).2 = (dbUpdate W x).2 ++ rest
      ∧ rest.head? ≠ some Event.setDB
      ∧ (c.isSetBlock = false → Event.setDB ∉ rest) := by
  cases c with
  | bench_wires bwo =>
    have hb : benchWiresBind W x = dbUpdate W x := by
      unfold benchWiresBind
      simp [hc]
    refine ⟨(benchWiresTables W bwo (benchWiresOpt bwo)).2
      ++ [Event.benchWires (benchWiresTables W bwo (benchWiresOpt bwo)).1], ?_, ?_, ?_⟩
    · show (bench_wires W x bwo).trace = _
      unfold bench_wires
      simp only [hb, List.append_assoc]
    · have h := tables_ne_nil W bwo (benchWiresOpt bwo)
      cases ht : (benchWiresTables W bwo (benchWiresOpt bwo)).2 with
      | nil => simp
      | cons a l =>
        rw [ht] at h
        simpa using h
    · intro _
      simp [setDB_not_mem_tables]
  | set_block n b i =>
    obtain ⟨rest, h1, h2⟩ := set_block_trace W x n b i
    exact ⟨rest, h1, h2, fun h => by cases h⟩
  | other entry => exact ⟨[Event.body entry], rfl, by simp, fun _ => by simp⟩

/-- With a chip present, a call begins with `setDB` exactly on an unbound `Ext`. -/
theorem run_head_chip (W : World) (x : Ext) (c : Call) (hc : W.getChip = true) :
    (Call.run W x c).2.head? = some Event.setDB ↔ x._initWithChip = false := by
  obtain ⟨rest, h1, h2, _⟩ := run_trace_chip W x c hc
  rw [h1]
  rcases dbUpdate_cases W x with ⟨hd, hx, _⟩ | ⟨hd, hx⟩
  · rw [hd]
    simp [hx]
  · rw [hd]
    simp only [List.nil_append]
    constructor
    · intro h
      exact absurd h h2
    · intro h
      exact absurd ⟨h, hc⟩ hx

/-- Without a chip only `bench_wires` and `set_block` invoke `setDB`. -/
theorem run_setDB_nochip (W : World) (x : Ext) (c : Call) (hc : W.getChip = false)
    (h : Event.setDB ∈ (Call.run W x c).2) :
    c.isBenchWires = true ∨ c.isSetBlock = true := by
  cases c with
  | bench_wires bwo => exact Or.inl rfl
  | set_block n b i => exact Or.inr rfl
  | other entry =>
    have h2 : Event.setDB ∈ (dbUpdate W x).2 ++ [Event.body entry] := h
    simp only [List.mem_append, List.mem_singleton] at h2
    rcases h2 with h2 | h2
    · rw [((dbUpdate_setDB W x).1 h2).2] at hc
      cases hc
    · cases h2

theorem runCalls_append (x : Ext) (a b : List (World × Call)) :
    runCalls x (a ++ b) = runCalls x a ++ runCalls (endState x a) b := by
  induction a generalizing x with
  | nil => rfl
  | cons p rest ih =>
    obtain ⟨W, c⟩ := p
    simp [runCalls, endState, ih]

theorem endState_unbound (x : Ext) (pre : List (World × Call))
    (hx : x._initWithChip = false) (hpre : ∀ p ∈ pre, p.1.getChip = false) :
    (endState x pre)._initWithChip = false := by
  induction pre generalizing x with
  | nil => exact hx
  | cons p rest ih =>
    obtain ⟨W, c⟩ := p
    apply ih
    · rw [run_flag, hx, hpre (W, c) (by simp)]
      rfl
    · intro q hq
      exact hpre q (by simp [hq])

theorem bound_count (calls : List (World × Call)) :
    ∀ x : Ext, ((runCalls x calls).filter boundWithChip).length
      ≤ (if x._initWithChip = true then 0 else 1) := by
  induction calls with
  | nil => intro x; simp [runCalls]
  | cons p rest ih =>
    intro x
    obtain ⟨W, c⟩ := p
    have hrest := ih (Call.run W x c).1
    rw [run_flag] at hrest
    simp only [runCalls, List.filter_cons]
    by_cases hb : boundWithChip (W, c, (Call.run W x c).2) = true
    · have hb2 := hb
      simp only [boundWithChip, Bool.and_eq_true, decide_eq_true_eq] at hb2
      obtain ⟨hchip, hhead⟩ := hb2
      have hx := (run_head_chip W x c hchip).1 hhead
      simp only [hb, if_true, List.length_cons]
      rw [hx, hchip] at hrest
      simp only [Bool.or_true, if_true] at hrest
      rw [hx]
      simp only [Bool.false_eq_true, if_false]
      omega
    · simp only [hb, if_false]
      cases hx : x._initWithChip
      · simp only [Bool.false_eq_true, if_false]
        split at hrest <;> omega
      · rw [hx] at hrest
        simpa using hrest

/-! ## C1 -/

/-- C1 (counterexample): the top block has the two children "a" and "b", the RC
generation of "b" returns 0 whenever it is called, and `extract` with tiling
degree 1 nevertheless returns `TCL_OK` and produces the total-capacitance report. -/
theorem C1_tiling_one_ignores_child_failure :
    sampleWorld.getChildren ⟨"top", [1, 2]⟩ = [⟨"a", [1]⟩, ⟨"b", [2]⟩]
    ∧ (∀ h args, sampleWorld.tileMakeBlockRCsegs h ⟨"b", [2]⟩ args = 0)
    ∧ ¬ ((extract sampleWorld ⟨false⟩ { ExtractOptions.zero with tiling := 1 }).status
            = some (boolOf TCL_ERROR)
          ∧ (extract sampleWorld ⟨false⟩
              { ExtractOptions.zero with tiling := 1 }).trace.filter Event.isReportTotalCap
              = []) :=
  ⟨rfl, fun _ _ => rfl, by decide⟩

/-- C1 (amended): with tiling degree 1 `extract` only lists the children of the
target block: it runs no RC generation of a child and no assembly, it returns
`TCL_ERROR` exactly when the LEF check fails or the RC generation of the target
block returns 0, and a run that returns `TCL_OK` with the power-grid-only option
off produces the total-capacitance report of the target block exactly once. -/
theorem C1_tiling_one_lists_children_only (W : World) (x : Ext) (opts : ExtractOptions)
    (top : dbBlock) (hb : W.getBlock = some top) (h1 : toUInt opts.tiling = 1) :
    ((extract W x opts).trace.filter Event.isTileRC = []
      ∧ (extract W x opts).trace.filter Event.isAssemblyExt = [])
    ∧ ((extract W x opts).status = some (boolOf TCL_ERROR)
        ↔ ((opts.lef_rc = true ∧ W.checkLayerResistance = false)
            ∨ ∃ args, Event.makeBlockRCsegs top args 0 ∈ (extract W x opts).trace))
    ∧ ((extract W x opts).status = some (boolOf TCL_OK) → opts.power_grid = false →
        (extract W x opts).trace.filter Event.isReportTotalCap = [reportOf top]) := by
  have hmem : ∀ args, Event.makeBlockRCsegs top args 0 ∈ (extract W x opts).trace
      ↔ Event.makeBlockRCsegs top args 0 ∈ steps (extract W x opts).trace := by
    intro args
    rw [mem_steps]
    simp [Event.isStep]
  rw [filter_eq_filter_steps _ isStep_of_isTileRC,
    filter_eq_filter_steps _ isStep_of_isAssemblyExt,
    filter_eq_filter_steps _ isStep_of_isReportTotalCap]
  simp only [hmem]
  rcases extract_shape W x opts top hb with ⟨hl, hc, hst, hS⟩ | ⟨hl, res, T, hS, hres⟩
  · rw [hS, hst]
    simp [hl, hc, status_ne]
  · rw [hS]
    have hA : ∀ p : Event → Bool, p Event.addExtModel = false →
        (if opts.lef_rc = true then [Event.addExtModel] else []).filter p = [] := by
      intro p hp
      split <;> simp [hp]
    rcases hres with ⟨h0, hT, hst⟩ | ⟨h0, _, hF⟩ | ⟨_, hn, _⟩ | ⟨_, hn, _⟩
    · subst h0 hT
      rw [hst]
      simp [List.filter_append, List.filter_cons, hA, filter_sdbSteps _ sdb_not_tile,
        filter_sdbSteps _ sdb_not_assembly, Event.isTileRC, Event.isAssemblyExt, status_ne]
    · obtain ⟨hF1, hF2, hF3, hF4⟩ := hF.cases
      have hTrc : T.filter Event.isMakeBlockRCsegs = [] := by
        rcases hF1 with h | h <;> subst h <;> rfl
      refine ⟨?_, ?_, ?_⟩
      · rcases hF1 with h | h <;> subst h <;>
          simp [List.filter_append, List.filter_cons, hA, filter_sdbSteps _ sdb_not_tile,
            filter_sdbSteps _ sdb_not_assembly, Event.isTileRC, Event.isAssemblyExt, reportOf]
      · constructor
        · intro h
          exact absurd h hF2
        · rintro (h | ⟨args, h⟩)
          · exact absurd h hl
          · exact absurd (rc_mem_shape (filter_rc_model _) hTrc h).2.2.symm h0
      · intro hok hp
        rw [hF3 hok hp]
        simp [List.filter_append, List.filter_cons, hA, filter_sdbSteps _ sdb_not_report,
          Event.isReportTotalCap, reportOf]
    · exact absurd h1 hn
    · exact absurd h1 hn

/-- C1 (witness): the amended statement at the sample design with tiling degree 1. -/
theorem C1_tiling_one_lists_children_only_witness :
    sampleWorld.getBlock = some ⟨"top", [1, 2]⟩
    ∧ toUInt ({ ExtractOptions.zero with tiling := 1 } : ExtractOptions).tiling = 1
    ∧ (extract sampleWorld ⟨false⟩ { ExtractOptions.zero with tiling := 1 }).trace.filter
        Event.isTileRC = [] :=
  ⟨rfl, by decide,
    (C1_tiling_one_lists_children_only sampleWorld ⟨false⟩
      { ExtractOptions.zero with tiling := 1 } ⟨"top", [1, 2]⟩ rfl (by decide)).1.1⟩

/-! ## C2 -/

/-- C2: if the RC generation of some child returns 0 then `extract` returns
`TCL_ERROR`, the failing call is the last pipeline call of the run (no child is
extracted after it), and the run contains no assembly call and no
total-capacitance report.  Moreover, wherever an assembly call stands among the
pipeline calls, the calls before it contain the RC generation of every child of
the target block, in iteration order and each with a non-zero result, and no RC
generation of a child comes after it. -/
theorem C2_tile_failure_aborts_without_assembly (W : World) (x : Ext)
    (opts : ExtractOptions) :
    (∀ blk a, Event.tileMakeBlockRCsegs blk a 0 ∈ (extract W x opts).trace →
      (extract W x opts).status = some (boolOf TCL_ERROR)
      ∧ (∃ pre, steps (extract W x opts).trace = pre ++ [Event.tileMakeBlockRCsegs blk a 0])
      ∧ (extract W x opts).trace.filter Event.isAssemblyExt = []
      ∧ (extract W x opts).trace.filter Event.isReportTotalCap = [])
    ∧ (∀ pre post t c, steps (extract W x opts).trace = pre ++ Event.assemblyExt t c :: post →
      ∃ top rs, W.getBlock = some top ∧ rs.length = (W.getChildren top).length
        ∧ (∀ r ∈ rs, r ≠ 0)
        ∧ pre.filter Event.isTileRC = tileCalls (tileRCArgs W opts) (W.getChildren top) rs
        ∧ post.filter Event.isTileRC = []) := by
  have hFt : ∀ {top st F}, FlatTail opts top st F → F.filter Event.isTileRC = [] := by
    intro top st F hF
    rcases hF.cases.1 with h | h <;> subst h <;> rfl
  have hFa : ∀ {top st F}, FlatTail opts top st F → F.filter Event.isAssemblyExt = [] := by
    intro top st F hF
    rcases hF.cases.1 with h | h <;> subst h <;> rfl
  cases hb : W.getBlock with
  | none =>
    have hs := (extract_no_block W x opts hb).2
    constructor
    · intro blk a h
      have : Event.tileMakeBlockRCsegs blk a 0 ∈ steps (extract W x opts).trace :=
        mem_steps.2 ⟨h, rfl⟩
      rw [hs] at this
      simp at this
    · intro pre post t c h
      rw [hs] at h
      simp at h
  | some top =>
    rw [filter_eq_filter_steps _ isStep_of_isAssemblyExt,
      filter_eq_filter_steps _ isStep_of_isReportTotalCap]
    constructor
    · intro blk a h
      have h2 : Event.tileMakeBlockRCsegs blk a 0
          ∈ (steps (extract W x opts).trace).filter Event.isTileRC :=
        mem_filter_of_mem (mem_steps.2 ⟨h, rfl⟩) rfl
      rcases extract_shape W x opts top hb with ⟨_, _, _, hS⟩ | ⟨_, res, T, hS, hres⟩
      · rw [hS] at h2
        simp at h2
      · rw [hS] at h2 ⊢
        rw [filter_shape _ rfl sdb_not_tile (fun _ _ _ => rfl)] at h2
        rw [filter_shape _ rfl sdb_not_assembly (fun _ _ _ => rfl),
          filter_shape _ rfl sdb_not_report (fun _ _ _ => rfl)]
        rcases hres with ⟨_, hT, _⟩ | ⟨_, _, hF⟩ | ⟨_, _, _, hst, done, b, rest, rs, _, _, hrs, hT⟩
            | ⟨_, _, _, rs, F, _, hrs, hF, hT⟩
        · subst hT
          simp at h2
        · rw [hFt hF] at h2
          simp at h2
        · subst hT
          rw [List.filter_append, filter_tileCalls_self] at h2
          rcases List.mem_append.1 h2 with h3 | h3
          · obtain ⟨_, r, h4, _, h5⟩ := mem_tileCalls h3
            injection h4 with _ _ h6
            exact absurd (h6 ▸ h5) (fun h7 => hrs 0 h7 rfl)
          · simp only [List.filter_cons, Event.isTileRC, if_true, List.filter_nil,
              List.mem_singleton] at h3
            rw [h3]
            refine ⟨hst, ⟨_, by rw [← List.append_assoc, ← List.cons_append,
              ← List.append_assoc]⟩, ?_, ?_⟩
            · simp [List.filter_append, filter_tileCalls_nil, Event.isAssemblyExt]
            · simp [List.filter_append, filter_tileCalls_nil, Event.isReportTotalCap]
        · subst hT
          rw [List.filter_append, List.filter_append, filter_tileCalls_self,
            filter_assembly_nil _ (fun _ _ => rfl), hFt hF] at h2
          simp only [List.append_nil] at h2
          obtain ⟨_, r, h4, _, h5⟩ := mem_tileCalls h2
          injection h4 with _ _ h6
          exact absurd (h6 ▸ h5) (fun h7 => hrs 0 h7 rfl)
    · intro pre post t c h
      have hmem : Event.assemblyExt t c
          ∈ (steps (extract W x opts).trace).filter Event.isAssemblyExt := by
        rw [h]
        simp [Event.isAssemblyExt]
      rcases extract_shape W x opts top hb with ⟨_, _, _, hS⟩ | ⟨_, res, T, hS, hres⟩
      · rw [hS] at hmem
        simp at hmem
      · rw [hS, filter_shape _ rfl sdb_not_assembly (fun _ _ _ => rfl)] at hmem
        rcases hres with ⟨_, hT, _⟩ | ⟨_, _, hF⟩ | ⟨_, _, _, hst, done, b, rest, rs, _, _, hrs, hT⟩
            | ⟨_, _, _, rs, F, hlen, hrs, hF, hT⟩
        · subst hT
          simp at hmem
        · rw [hFa hF] at hmem
          simp at hmem
        · subst hT
          simp [List.filter_append, filter_tileCalls_nil, Event.isAssemblyExt] at hmem
        · subst hT
          refine ⟨top, rs, rfl, hlen, hrs, ?_⟩
          have hsplit : ((if opts.lef_rc = true then [Event.addExtModel] else [])
                ++ (sdbSteps W (effectiveBandTracks opts)
                    ++ Event.makeBlockRCsegs top (mainRCArgs W opts) res
                        :: tileCalls (tileRCArgs W opts) (W.getChildren top) rs))
              ++ ((W.getChildren top).map (Event.assemblyExt top) ++ F)
              = pre ++ Event.assemblyExt t c :: post := by
            rw [← h, hS]
            simp
          have hnot : Event.assemblyExt t c
              ∉ (if opts.lef_rc = true then [Event.addExtModel] else [])
                ++ (sdbSteps W (effectiveBandTracks opts)
                    ++ Event.makeBlockRCsegs top (mainRCArgs W opts) res
                        :: tileCalls (tileRCArgs W opts) (W.getChildren top) rs) := by
            intro hin
            have := mem_filter_of_mem hin (rfl : (Event.assemblyExt t c).isAssemblyExt = true)
            rw [filter_shape _ rfl sdb_not_assembly (fun _ _ _ => rfl),
              filter_tileCalls_nil _ (fun _ _ _ => rfl)] at this
            simp at this
          obtain ⟨m, hpre, hm⟩ := split_after hsplit hnot
          have hL2 : ((W.getChildren top).map (Event.assemblyExt top) ++ F).filter
              Event.isTileRC = [] := by
            rw [List.filter_append, filter_assembly_nil _ (fun _ _ => rfl), hFt hF]
            rfl
          rw [hm, List.filter_append, List.append_eq_nil, List.filter_cons] at hL2
          simp only [Event.isTileRC, Bool.false_eq_true, if_false] at hL2
          rw [hpre, List.filter_append, hL2.1,
            filter_shape _ rfl sdb_not_tile (fun _ _ _ => rfl), filter_tileCalls_self]
          exact ⟨by simp, hL2.2⟩

/-- C2 (witness): in the sample design run with test code 501 the child "b"
fails, and in the design where every child succeeds the assembly of "a" comes
after the RC generation of both children. -/
theorem C2_tile_failure_aborts_without_assembly_witness :
    (Event.tileMakeBlockRCsegs ⟨"b", [2]⟩
        (tileRCArgs sampleWorld { ExtractOptions.zero with test := 501 }) 0
      ∈ (extract sampleWorld ⟨false⟩ { ExtractOptions.zero with test := 501 }).trace
      ∧ (extract sampleWorld ⟨false⟩ { ExtractOptions.zero with test := 501 }).status
          = some (boolOf TCL_ERROR))
    ∧ (∃ pre post, steps (extract sampleWorldOk ⟨false⟩
          { ExtractOptions.zero with test := 501 }).trace
          = pre ++ Event.assemblyExt ⟨"top", [1, 2]⟩ ⟨"a", [1]⟩ :: post
        ∧ post.filter Event.isTileRC = []) := by
  have h1 : Event.tileMakeBlockRCsegs ⟨"b", [2]⟩
        (tileRCArgs sampleWorld { ExtractOptions.zero with test := 501 }) 0
      ∈ (extract sampleWorld ⟨false⟩ { ExtractOptions.zero with test := 501 }).trace := by
    decide
  have h2 : steps (extract sampleWorldOk ⟨false⟩ { ExtractOptions.zero with test := 501 }).trace
      = [Event.makeBlockRCsegs ⟨"top", [1, 2]⟩
            (mainRCArgs sampleWorldOk { ExtractOptions.zero with test := 501 }) 1,
          Event.tileMakeBlockRCsegs ⟨"a", [1]⟩
            (tileRCArgs sampleWorldOk { ExtractOptions.zero with test := 501 }) 1,
          Event.tileMakeBlockRCsegs ⟨"b", [2]⟩
            (tileRCArgs sampleWorldOk { ExtractOptions.zero with test := 501 }) 1]
        ++ Event.assemblyExt ⟨"top", [1, 2]⟩ ⟨"a", [1]⟩
          :: [Event.assemblyExt ⟨"top", [1, 2]⟩ ⟨"b", [2]⟩, reportOf ⟨"top", [1, 2]⟩] := by
    decide
  refine ⟨⟨h1, ((C2_tile_failure_aborts_without_assembly sampleWorld ⟨false⟩
      { ExtractOptions.zero with test := 501 }).1 _ _ h1).1⟩, _, _, h2, ?_⟩
  obtain ⟨_, _, _, _, _, _, h3⟩ := (C2_tile_failure_aborts_without_assembly sampleWorldOk
    ⟨false⟩ { ExtractOptions.zero with test := 501 }).2 _ _ _ _ h2
  exact h3

/-! ## C3 -/

/-- C3 (counterexample): with tiling degree 0, which is not recognized, and
test code 501, `extract` runs the RC generation of both children and both
assembly calls. -/
theorem C3_unrecognized_tiling_with_test_501_runs_tiles :
    recognizedTiling (toUInt ({ ExtractOptions.zero with test := 501 } : ExtractOptions).tiling)
      = false
    ∧ ((extract sampleWorldOk ⟨false⟩ { ExtractOptions.zero with test := 501 }).trace.filter
        Event.isTileRC).length = 2
    ∧ ((extract sampleWorldOk ⟨false⟩ { ExtractOptions.zero with test := 501 }).trace.filter
        Event.isAssemblyExt).length = 2
    ∧ ¬ ((extract sampleWorldOk ⟨false⟩ { ExtractOptions.zero with test := 501 }).trace.filter
          Event.isTileRC = []
        ∧ (extract sampleWorldOk ⟨false⟩ { ExtractOptions.zero with test := 501 }).trace.filter
          Event.isAssemblyExt = []) := by
  decide

/-- C3 (amended): for a tiling degree outside the recognized set and a test
code other than 501, `extract` runs no RC generation of a child and no
assembly, and every RC generation it runs is on the target block with the
test code of the caller as mode code; a run on a block that gets past the LEF
check makes exactly one such call. -/
theorem C3_unrecognized_tiling_is_flat (W : World) (x : Ext) (opts : ExtractOptions)
    (hun : recognizedTiling (toUInt opts.tiling) = false) (ht : toUInt opts.test ≠ 501) :
    (extract W x opts).trace.filter Event.isTileRC = []
    ∧ (extract W x opts).trace.filter Event.isAssemblyExt = []
    ∧ (∀ blk args r, Event.makeBlockRCsegs blk args r ∈ (extract W x opts).trace →
        W.getBlock = some blk ∧ args = mainRCArgs W opts ∧ args.extdbg = toUInt opts.test)
    ∧ (∀ top, W.getBlock = some top →
        ¬ (opts.lef_rc = true ∧ W.checkLayerResistance = false) →
        ∃ r, (extract W x opts).trace.filter Event.isMakeBlockRCsegs
              = [Event.makeBlockRCsegs top (mainRCArgs W opts) r]) := by
  have hmode : resolveExtdbg (toUInt opts.tiling) (toUInt opts.test) = toUInt opts.test :=
    resolveExtdbg_unrecognized _ _ hun
  refine ⟨?_, ?_, ?_, fun top hb hl => filter_rc_extract W x opts top hb hl⟩
  · rw [filter_eq_filter_steps _ isStep_of_isTileRC]
    cases hb : W.getBlock with
    | none => rw [(extract_no_block W x opts hb).2]; rfl
    | some top =>
      rcases extract_shape W x opts top hb with ⟨_, _, _, hS⟩ | ⟨_, res, T, hS, hT⟩
      · rw [hS]; rfl
      · rw [hS, filter_shape _ rfl sdb_not_tile (fun _ _ _ => rfl)]
        rcases hT with ⟨_, hT, _⟩ | ⟨_, _, hF⟩ | ⟨_, _, h5, _⟩ | ⟨_, _, h5, _⟩
        · subst hT; rfl
        · rcases hF.cases.1 with h | h <;> subst h <;> rfl
        · exact absurd (hmode ▸ h5) ht
        · exact absurd (hmode ▸ h5) ht
  · rw [filter_eq_filter_steps _ isStep_of_isAssemblyExt]
    cases hb : W.getBlock with
    | none => rw [(extract_no_block W x opts hb).2]; rfl
    | some top =>
      rcases extract_shape W x opts top hb with ⟨_, _, _, hS⟩ | ⟨_, res, T, hS, hT⟩
      · rw [hS]; rfl
      · rw [hS, filter_shape _ rfl sdb_not_assembly (fun _ _ _ => rfl)]
        rcases hT with ⟨_, hT, _⟩ | ⟨_, _, hF⟩ | ⟨_, _, h5, _⟩ | ⟨_, _, h5, _⟩
        · subst hT; rfl
        · rcases hF.cases.1 with h | h <;> subst h <;> rfl
        · exact absurd (hmode ▸ h5) ht
        · exact absurd (hmode ▸ h5) ht
  · intro blk args r h
    obtain ⟨h1, h2⟩ := rc_call_args W x opts blk args r h
    refine ⟨h1, h2, ?_⟩
    rw [h2]
    exact hmode

/-- C3 (witness): the amended statement at the sample design with tiling degree
0 and test code 0. -/
theorem C3_unrecognized_tiling_is_flat_witness :
    recognizedTiling (toUInt ExtractOptions.zero.tiling) = false
    ∧ toUInt ExtractOptions.zero.test ≠ 501
    ∧ (extract sampleWorld ⟨false⟩ ExtractOptions.zero).trace.filter Event.isTileRC = []
    ∧ ∃ r, (extract sampleWorld ⟨false⟩ ExtractOptions.zero).trace.filter
            Event.isMakeBlockRCsegs
          = [Event.makeBlockRCsegs ⟨"top", [1, 2]⟩
              (mainRCArgs sampleWorld ExtractOptions.zero) r] :=
  ⟨by decide, by decide,
    (C3_unrecognized_tiling_is_flat sampleWorld ⟨false⟩ ExtractOptions.zero
      (by decide) (by decide)).1,
    (C3_unrecognized_tiling_is_flat sampleWorld ⟨false⟩ ExtractOptions.zero
      (by decide) (by decide)).2.2.2 ⟨"top", [1, 2]⟩ rfl (by decide)⟩

/-! ## C4 -/

/-- C4: the mode code of every RC generation of the target block is fixed by a
recognized tiling degree alone (1: 501, 7: 703, 8: 803, 9: 603, 10: 603,
77: 773, 777: 777), whatever the test code and the other options are; and a run
on a block that gets past the LEF check makes exactly one such call. -/
theorem C4_recognized_tiling_fixes_mode (W : World) (x : Ext) (opts : ExtractOptions) :
    (∀ blk args r, Event.makeBlockRCsegs blk args r ∈ (extract W x opts).trace →
      (toUInt opts.tiling = 1 → args.extdbg = 501)
      ∧ (toUInt opts.tiling = 7 → args.extdbg = 703)
      ∧ (toUInt opts.tiling = 8 → args.extdbg = 803)
      ∧ (toUInt opts.tiling = 9 → args.extdbg = 603)
      ∧ (toUInt opts.tiling = 10 → args.extdbg = 603)
      ∧ (toUInt opts.tiling = 77 → args.extdbg = 773)
      ∧ (toUInt opts.tiling = 777 → args.extdbg = 777))
    ∧ (∀ top, W.getBlock = some top →
        ¬ (opts.lef_rc = true ∧ W.checkLayerResistance = false) →
        ∃ r, (extract W x opts).trace.filter Event.isMakeBlockRCsegs
              = [Event.makeBlockRCsegs top (mainRCArgs W opts) r]) := by
  refine ⟨?_, fun top hb hl => filter_rc_extract W x opts top hb hl⟩
  intro blk args r h
  obtain ⟨_, h2⟩ := rc_call_args W x opts blk args r h
  subst h2
  have he : (mainRCArgs W opts).extdbg
      = resolveExtdbg (toUInt opts.tiling) (toUInt opts.test) := rfl
  rw [he]
  refine ⟨?_, ?_, ?_, ?_, ?_, ?_, ?_⟩ <;> intro hd <;> rw [hd] <;> rfl

/-- C4 (witness): with tiling degree 7 and test code 501 the one RC generation
of the sample run gets mode code 703. -/
theorem C4_recognized_tiling_fixes_mode_witness :
    Event.makeBlockRCsegs ⟨"top", [1, 2]⟩
        (mainRCArgs sampleWorld { ExtractOptions.zero with tiling := 7, test := 501 }) 1
      ∈ (extract sampleWorld ⟨false⟩
          { ExtractOptions.zero with tiling := 7, test := 501 }).trace
    ∧ (mainRCArgs sampleWorld { ExtractOptions.zero with tiling := 7, test := 501 }).extdbg
        = 703 := by
  have h : Event.makeBlockRCsegs ⟨"top", [1, 2]⟩
        (mainRCArgs sampleWorld { ExtractOptions.zero with tiling := 7, test := 501 }) 1
      ∈ (extract sampleWorld ⟨false⟩
          { ExtractOptions.zero with tiling := 7, test := 501 }).trace := by
    decide
  exact ⟨h, ((C4_recognized_tiling_fixes_mode sampleWorld ⟨false⟩
    { ExtractOptions.zero with tiling := 7, test := 501 }).1 _ _ _ h).2.1 (by decide)⟩

/-! ## C5 -/

/-- C5: if the RC generation of the target block returns 0 then `extract`
returns `TCL_ERROR` and that call is the last pipeline call of the run: no
child is extracted, no assembly is run and no total-capacitance report is
produced. -/
theorem C5_rc_failure_aborts (W : World) (x : Ext) (opts : ExtractOptions) (blk : dbBlock)
    (args : RCArgs) (h : Event.makeBlockRCsegs blk args 0 ∈ (extract W x opts).trace) :
    (extract W x opts).status = some (boolOf TCL_ERROR)
    ∧ (∃ pre, steps (extract W x opts).trace = pre ++ [Event.makeBlockRCsegs blk args 0])
    ∧ (extract W x opts).trace.filter Event.isTileRC = []
    ∧ (extract W x opts).trace.filter Event.isAssemblyExt = []
    ∧ (extract W x opts).trace.filter Event.isReportTotalCap = [] := by
  have h2 : Event.makeBlockRCsegs blk args 0 ∈ steps (extract W x opts).trace :=
    mem_steps.2 ⟨h, rfl⟩
  rw [filter_eq_filter_steps _ isStep_of_isTileRC,
    filter_eq_filter_steps _ isStep_of_isAssemblyExt,
    filter_eq_filter_steps _ isStep_of_isReportTotalCap]
  cases hb : W.getBlock with
  | none =>
    rw [(extract_no_block W x opts hb).2] at h2
    simp at h2
  | some top =>
    rcases extract_shape W x opts top hb with ⟨_, _, _, hS⟩ | ⟨_, res, T, hS, hT⟩
    · rw [hS] at h2
      simp at h2
    · rw [hS] at h2 ⊢
      obtain ⟨h3, h4, h5⟩ := rc_mem_shape (filter_rc_model _) hT.filter_rc h2
      subst h3 h4 h5
      rw [filter_shape _ rfl sdb_not_tile (fun _ _ _ => rfl),
        filter_shape _ rfl sdb_not_assembly (fun _ _ _ => rfl),
        filter_shape _ rfl sdb_not_report (fun _ _ _ => rfl)]
      rcases hT with ⟨_, hT, hst⟩ | ⟨h0, _⟩ | ⟨h0, _⟩ | ⟨h0, _⟩
      · subst hT
        exact ⟨hst, ⟨_, by rw [← List.append_assoc]⟩, rfl, rfl, rfl⟩
      · exact absurd rfl h0
      · exact absurd rfl h0
      · exact absurd rfl h0

/-- C5 (witness): a design whose target block fails RC generation. -/
theorem C5_rc_failure_aborts_witness :
    Event.makeBlockRCsegs ⟨"top", [1, 2]⟩ (mainRCArgs sampleWorldRCFail ExtractOptions.zero) 0
      ∈ (extract sampleWorldRCFail ⟨false⟩ ExtractOptions.zero).trace
    ∧ (extract sampleWorldRCFail ⟨false⟩ ExtractOptions.zero).status
        = some (boolOf TCL_ERROR) := by
  have h : Event.makeBlockRCsegs ⟨"top", [1, 2]⟩
        (mainRCArgs sampleWorldRCFail ExtractOptions.zero) 0
      ∈ (extract sampleWorldRCFail ⟨false⟩ ExtractOptions.zero).trace := by
    decide
  exact ⟨h, (C5_rc_failure_aborts sampleWorldRCFail ⟨false⟩ ExtractOptions.zero _ _ h).1⟩

/-! ## C6 -/

/-- C6: when LEF-sourced RC values are requested and the layer-resistance
check fails, `extract` makes no pipeline call at all (no installation of the
LEF model, no RC generation, no report) and, run on a block, returns
`TCL_ERROR`; when the check succeeds, a run on a block installs the LEF model
as its first pipeline call, exactly once, and the RC generation of the target
block comes after it. -/
theorem C6_lef_rc_check (W : World) (x : Ext) (opts : ExtractOptions)
    (hlef : opts.lef_rc = true) :
    (W.checkLayerResistance = false →
      (extract W x opts).trace.filter Event.isAddExtModel = []
      ∧ (extract W x opts).trace.filter Event.isMakeBlockRCsegs = []
      ∧ (extract W x opts).trace.filter Event.isTileRC = []
      ∧ (extract W x opts).trace.filter Event.isReportTotalCap = []
      ∧ ∀ top, W.getBlock = some top →
          (extract W x opts).status = some (boolOf TCL_ERROR))
    ∧ (W.checkLayerResistance = true → ∀ top, W.getBlock = some top →
        ∃ rest r, steps (extract W x opts).trace = Event.addExtModel :: rest
          ∧ rest.filter Event.isAddExtModel = []
          ∧ rest.filter Event.isMakeBlockRCsegs
              = [Event.makeBlockRCsegs top (mainRCArgs W opts) r]
          ∧ (extract W x opts).trace.filter Event.isAddExtModel = [Event.addExtModel]) := by
  constructor
  · intro hc
    have hs : steps (extract W x opts).trace = [] := by
      cases hb : W.getBlock with
      | none => exact (extract_no_block W x opts hb).2
      | some top =>
        rcases extract_shape W x opts top hb with ⟨_, _, _, hS⟩ | ⟨hl, _⟩
        · exact hS
        · exact absurd ⟨hlef, hc⟩ hl
    rw [filter_eq_filter_steps _ isStep_of_isAddExtModel,
      filter_eq_filter_steps _ isStep_of_isMakeBlockRCsegs,
      filter_eq_filter_steps _ isStep_of_isTileRC,
      filter_eq_filter_steps _ isStep_of_isReportTotalCap, hs]
    refine ⟨rfl, rfl, rfl, rfl, ?_⟩
    intro top hb
    rcases extract_shape W x opts top hb with ⟨_, _, hst, _⟩ | ⟨hl, _⟩
    · exact hst
    · exact absurd ⟨hlef, hc⟩ hl
  · intro hc top hb
    rw [filter_eq_filter_steps _ isStep_of_isAddExtModel]
    rcases extract_shape W x opts top hb with ⟨_, h2, _⟩ | ⟨_, res, T, hS, hT⟩
    · rw [hc] at h2
      cases h2
    · rw [hS]
      simp only [hlef, if_true, List.singleton_append]
      refine ⟨_, res, rfl, ?_, ?_, ?_⟩
      · rw [List.filter_append, filter_sdbSteps _ sdb_not_model, List.filter_cons,
          hT.filter_nil _ (fun _ _ _ => rfl) (fun _ _ => rfl) (fun _ _ _ _ _ _ => rfl)]
        rfl
      · rw [List.filter_append, filter_sdbSteps _ sdb_not_rc, List.filter_cons, hT.filter_rc]
        rfl
      · rw [List.filter_cons, List.filter_append, filter_sdbSteps _ sdb_not_model,
          List.filter_cons,
          hT.filter_nil _ (fun _ _ _ => rfl) (fun _ _ => rfl) (fun _ _ _ _ _ _ => rfl)]
        rfl

/-- C6 (witness): the sample design with `lef_rc` set, once with the check
failing and once with the check succeeding. -/
theorem C6_lef_rc_check_witness :
    ({ ExtractOptions.zero with lef_rc := true } : ExtractOptions).lef_rc = true
    ∧ sampleWorldNoRes.checkLayerResistance = false
    ∧ (extract sampleWorldNoRes ⟨false⟩ { ExtractOptions.zero with lef_rc := true }).status
        = some (boolOf TCL_ERROR)
    ∧ sampleWorld.checkLayerResistance = true
    ∧ (extract sampleWorld ⟨false⟩
        { ExtractOptions.zero with lef_rc := true }).trace.filter Event.isAddExtModel
        = [Event.addExtModel] := by
  refine ⟨rfl, rfl, ?_, rfl, ?_⟩
  · exact ((C6_lef_rc_check sampleWorldNoRes ⟨false⟩
      { ExtractOptions.zero with lef_rc := true } rfl).1 rfl).2.2.2.2 ⟨"top", [1, 2]⟩ rfl
  · obtain ⟨_, _, _, _, _, h⟩ := (C6_lef_rc_check sampleWorld ⟨false⟩
      { ExtractOptions.zero with lef_rc := true } rfl).2 rfl ⟨"top", [1, 2]⟩ rfl
    exact h

/-! ## C7 -/

/-- C7 (counterexample): with a band-track count of 3 and test code 0 the
effective band-track count is non-zero, and `extract` acquires no index and
passes the null index to the RC generation, in a build without `ZUI` and in a
build with `ZUI`. -/
theorem C7_nonzero_band_tracks_pass_no_index :
    effectiveBandTracks { ExtractOptions.zero with cc_band_tracks := 3 } ≠ 0
    ∧ (extract sampleWorld ⟨false⟩
        { ExtractOptions.zero with cc_band_tracks := 3 }).trace.filter Event.isSdbAcquire = []
    ∧ (extract sampleWorld ⟨false⟩
        { ExtractOptions.zero with cc_band_tracks := 3 }).trace.filter Event.isMakeBlockRCsegs
        = [Event.makeBlockRCsegs ⟨"top", [1, 2]⟩
            (mainRCArgs sampleWorld { ExtractOptions.zero with cc_band_tracks := 3 }) 1]
    ∧ (mainRCArgs sampleWorld { ExtractOptions.zero with cc_band_tracks := 3 }).dbNetSdb = none
    ∧ (extract sampleWorldZUI ⟨false⟩
        { ExtractOptions.zero with cc_band_tracks := 3 }).trace.filter Event.isSdbAcquire = []
    ∧ (extract sampleWorldZUI ⟨false⟩
        { ExtractOptions.zero with cc_band_tracks := 3 }).trace.filter Event.isMakeBlockRCsegs
        = [Event.makeBlockRCsegs ⟨"top", [1, 2]⟩
            (mainRCArgs sampleWorldZUI { ExtractOptions.zero with cc_band_tracks := 3 }) 1]
    ∧ (mainRCArgs sampleWorldZUI { ExtractOptions.zero with cc_band_tracks := 3 }).dbNetSdb
        = none := by
  decide

/-- C7 (amended): in a run on a block that gets past the LEF check, `extract`
acquires a search index and passes it (non-null) to the RC generation exactly
when the build defines `ZUI` and the effective band-track count is zero; in
every other case (a non-zero effective band-track count, or a build without
`ZUI`) it acquires no index and passes the null index.  Every RC generation of
a child gets the same index as the target block. -/
theorem C7_index_only_for_zero_band_tracks_under_ZUI (W : World) (x : Ext)
    (opts : ExtractOptions) (top : dbBlock) (hb : W.getBlock = some top)
    (hl : ¬ (opts.lef_rc = true ∧ W.checkLayerResistance = false)) :
    (∃ r, (extract W x opts).trace.filter Event.isMakeBlockRCsegs
            = [Event.makeBlockRCsegs top (mainRCArgs W opts) r])
    ∧ (∀ blk a r, Event.tileMakeBlockRCsegs blk a r ∈ (extract W x opts).trace →
        a.dbNetSdb = (mainRCArgs W opts).dbNetSdb)
    ∧ ((W.ZUI = true ∧ effectiveBandTracks opts = 0) →
        (extract W x opts).trace.filter Event.isSdbAcquire ≠ []
        ∧ ∃ i, (mainRCArgs W opts).dbNetSdb = some i)
    ∧ (¬ (W.ZUI = true ∧ effectiveBandTracks opts = 0) →
        (extract W x opts).trace.filter Event.isSdbAcquire = []
        ∧ (mainRCArgs W opts).dbNetSdb = none) := by
  have hsdb : (mainRCArgs W opts).dbNetSdb
      = (acquireSdb W (effectiveBandTracks opts)).dbNetSdb := rfl
  have hfil : (extract W x opts).trace.filter Event.isSdbAcquire
      = (sdbSteps W (effectiveBandTracks opts)).filter Event.isSdbAcquire := by
    rw [filter_eq_filter_steps _ isStep_of_isSdbAcquire]
    rcases extract_shape W x opts top hb with ⟨h1, h2, _⟩ | ⟨_, res, T, hS, hT⟩
    · exact absurd ⟨h1, h2⟩ hl
    · rw [hS, List.filter_append, List.filter_append, List.filter_cons,
        hT.filter_nil _ (fun _ _ _ => rfl) (fun _ _ => rfl) (fun _ _ _ _ _ _ => rfl)]
      cases opts.lef_rc <;> simp [Event.isSdbAcquire]
  refine ⟨filter_rc_extract W x opts top hb hl, ?_, ?_, ?_⟩
  · intro blk a r h
    rw [tile_call_args W x opts blk a r h]
    rfl
  · rintro ⟨hz, hc⟩
    rw [hfil, hsdb]
    rcases sdbSteps_cases W (effectiveBandTracks opts) with ⟨_, _, h | h⟩ | ⟨s, h1, h2, _⟩
        | ⟨h1, h2, _⟩
    · exact absurd hc h
    · rw [hz] at h
      cases h
    · rw [h1, h2]
      exact ⟨by simp [Event.isSdbAcquire], s, rfl⟩
    · rw [h1, h2]
      exact ⟨by simp [Event.isSdbAcquire], _, rfl⟩
  · intro hn
    rw [hfil, hsdb]
    rcases sdbSteps_cases W (effectiveBandTracks opts) with ⟨h1, h2, _⟩ | ⟨s, _, _, h3, h4⟩
        | ⟨_, _, h3, h4⟩
    · rw [h1, h2]
      exact ⟨rfl, rfl⟩
    · exact absurd ⟨h4, h3⟩ hn
    · exact absurd ⟨h4, h3⟩ hn

/-- C7 (witness): the sample design in a build with `ZUI` and a band-track
count of 0: the index is acquired and passed. -/
theorem C7_index_only_for_zero_band_tracks_under_ZUI_witness :
    sampleWorldZUI.getBlock = some ⟨"top", [1, 2]⟩
    ∧ ¬ (ExtractOptions.zero.lef_rc = true ∧ sampleWorldZUI.checkLayerResistance = false)
    ∧ (sampleWorldZUI.ZUI = true ∧ effectiveBandTracks ExtractOptions.zero = 0)
    ∧ (extract sampleWorldZUI ⟨false⟩ ExtractOptions.zero).trace.filter Event.isSdbAcquire
        ≠ [] :=
  ⟨rfl, by decide, by decide,
    ((C7_index_only_for_zero_band_tracks_under_ZUI sampleWorldZUI ⟨false⟩ ExtractOptions.zero
      ⟨"top", [1, 2]⟩ rfl (by decide)).2.2.1 (by decide)).1⟩

/-! ## C8 -/

/-- C8: in a run of `extract` that returns `TCL_OK`, with the power-grid-only
option off the total-capacitance report is called exactly once, as the last
pipeline call (after every RC generation and assembly), with the name of the
target block followed by ".totCap", cap-only true, res-only false, factor 1 and
no reference or read file; with the option on it is not called. -/
theorem C8_report_total_cap (W : World) (x : Ext) (opts : ExtractOptions)
    (hok : (extract W x opts).status = some (boolOf TCL_OK)) :
    (opts.power_grid = false →
      ∃ top pre, W.getBlock = some top
        ∧ steps (extract W x opts).trace
            = pre ++ [Event.reportTotalCap (top.name ++ ".totCap") true false 1 none none]
        ∧ pre.filter Event.isReportTotalCap = []
        ∧ (extract W x opts).trace.filter Event.isReportTotalCap
            = [Event.reportTotalCap (top.name ++ ".totCap") true false 1 none none])
    ∧ (opts.power_grid = true →
        (extract W x opts).trace.filter Event.isReportTotalCap = []) := by
  rw [filter_eq_filter_steps _ isStep_of_isReportTotalCap]
  cases hb : W.getBlock with
  | none =>
    rw [(extract_no_block W x opts hb).1] at hok
    cases hok
  | some top =>
    rcases extract_shape W x opts top hb with ⟨_, _, hst, _⟩ | ⟨_, res, T, hS, hT⟩
    · rw [hst] at hok
      exact absurd (Option.some.inj hok) status_ne
    · rw [hS, filter_shape _ rfl sdb_not_report (fun _ _ _ => rfl)]
      have hF : ∀ {F}, FlatTail opts top (extract W x opts).status F →
          (opts.power_grid = false → F = [reportOf top]) ∧ (opts.power_grid = true → F = []) :=
        fun hF => ⟨hF.cases.2.2.1 hok, hF.cases.2.2.2⟩
      rcases hT with ⟨_, _, hst⟩ | ⟨_, _, hF1⟩ | ⟨_, _, _, hst, _⟩ | ⟨_, _, _, rs, F, _, _, hF1, hT⟩
      · rw [hst] at hok
        exact absurd (Option.some.inj hok) status_ne
      · constructor
        · intro hp
          rw [(hF hF1).1 hp]
          refine ⟨top, (if opts.lef_rc = true then [Event.addExtModel] else [])
            ++ (sdbSteps W (effectiveBandTracks opts)
              ++ [Event.makeBlockRCsegs top (mainRCArgs W opts) res]), rfl, ?_, ?_, rfl⟩
          · simp [reportOf]
          · have h := filter_shape Event.isReportTotalCap rfl sdb_not_report
              (fun _ _ _ => rfl) W (effectiveBandTracks opts) opts.lef_rc top
              (mainRCArgs W opts) res []
            simpa using h
        · intro hp
          rw [(hF hF1).2 hp]
          rfl
      · rw [hst] at hok
        exact absurd (Option.some.inj hok) status_ne
      · subst hT
        constructor
        · intro hp
          rw [(hF hF1).1 hp]
          refine ⟨top, (if opts.lef_rc = true then [Event.addExtModel] else [])
            ++ (sdbSteps W (effectiveBandTracks opts)
              ++ Event.makeBlockRCsegs top (mainRCArgs W opts) res
                :: (tileCalls (tileRCArgs W opts) (W.getChildren top) rs
                  ++ (W.getChildren top).map (Event.assemblyExt top))), rfl, ?_, ?_, ?_⟩
          · simp [reportOf]
          · rw [filter_shape _ rfl sdb_not_report (fun _ _ _ => rfl), List.filter_append,
              filter_tileCalls_nil _ (fun _ _ _ => rfl), filter_assembly_nil _ (fun _ _ => rfl)]
            rfl
          · rw [List.filter_append, List.filter_append,
              filter_tileCalls_nil _ (fun _ _ _ => rfl), filter_assembly_nil _ (fun _ _ => rfl)]
            rfl
        · intro hp
          rw [(hF hF1).2 hp, List.filter_append, List.filter_append,
            filter_tileCalls_nil _ (fun _ _ _ => rfl), filter_assembly_nil _ (fun _ _ => rfl)]
          rfl

/-- C8 (witness): a successful run with child loop and assembly on the sample
design reports to "top.totCap". -/
theorem C8_report_total_cap_witness :
    (extract sampleWorldOk ⟨false⟩ { ExtractOptions.zero with test := 501 }).status
      = some (boolOf TCL_OK)
    ∧ (extract sampleWorldOk ⟨false⟩
        { ExtractOptions.zero with test := 501 }).trace.filter Event.isReportTotalCap
        = [Event.reportTotalCap "top.totCap" true false 1 none none] := by
  have hok : (extract sampleWorldOk ⟨false⟩ { ExtractOptions.zero with test := 501 }).status
      = some (boolOf TCL_OK) := by decide
  obtain ⟨top, pre, hb, _, _, h⟩ := (C8_report_total_cap sampleWorldOk ⟨false⟩
    { ExtractOptions.zero with test := 501 } hok).1 rfl
  have ht : top = ⟨"top", [1, 2]⟩ := (Option.some.inj hb).symm
  subst ht
  exact ⟨hok, h⟩

/-! ## C9 -/

/-- C9: for a non-empty file path that the tokenizer splits into the words
`t0 :: rest`, the engine read calls of `read_spef` are exactly: one `readSPEF`
on `t0` with the diff and calibrate flags false, followed by one `readSPEFincr`
on each word of `rest`, in order; and the run returns `TCL_OK`.  (Under `ZUI`
with `stamp_wire` the block of the engine is dereferenced, so it has to exist.) -/
theorem C9_read_spef_primary_then_incremental (W : World) (x : Ext) (opt : ReadSpefOpts)
    (file t0 : String) (rest : List String) (hf : opt.file = some file) (hne : file ≠ "")
    (htok : W.mkWords file = t0 :: rest)
    (hblk : (W.ZUI && opt.stamp_wire) = true → W.getBlock ≠ none) :
    (read_spef W x opt).trace.filter Event.isSpefCall
      = Event.readSPEF (readArgs opt (some t0)
            (if (W.ZUI && opt.stamp_wire) = true then some W.getSignalNetSdb else none))
          :: rest.map (fun w => Event.readSPEFincr (some w))
    ∧ (readArgs opt (some t0)
        (if (W.ZUI && opt.stamp_wire) = true then some W.getSignalNetSdb else none)).filename
        = some t0
    ∧ (readArgs opt (some t0)
        (if (W.ZUI && opt.stamp_wire) = true then some W.getSignalNetSdb else none)).diff = false
    ∧ (readArgs opt (some t0)
        (if (W.ZUI && opt.stamp_wire) = true then some W.getSignalNetSdb else none)).calibrate
        = false
    ∧ (read_spef W x opt).status = some (boolOf TCL_OK) := by
  refine ⟨?_, rfl, rfl, rfl, ?_⟩
  · unfold read_spef
    by_cases hz : (W.ZUI && opt.stamp_wire) = true
    · cases hb : W.getBlock with
      | none => exact absurd hb (hblk hz)
      | some b =>
        simp only [hz, if_true, readFiles, hf, hne, if_false, htok, parserGet]
        simp [List.filter_append, filter_spef_dbUpdate, filter_spef_incr, Event.isSpefCall]
    · simp only [hz, if_false, readFiles, hf, hne, htok, parserGet, Bool.false_eq_true]
      simp [List.filter_append, filter_spef_dbUpdate, filter_spef_incr, Event.isSpefCall]
  · unfold read_spef
    by_cases hz : (W.ZUI && opt.stamp_wire) = true
    · cases hb : W.getBlock with
      | none => exact absurd hb (hblk hz)
      | some b =>
        simp only [hz, if_true, readFiles, hf, hne, if_false]
        rfl
    · simp only [hz, if_false, readFiles, hf, hne, Bool.false_eq_true]
      rfl

/-- C9 (witness): a file list of three words on the sample design. -/
theorem C9_read_spef_primary_then_incremental_witness :
    sampleWorld.mkWords "a.spef b.spef c.spef" = ["a.spef", "b.spef", "c.spef"]
    ∧ (read_spef sampleWorld ⟨false⟩
        { ReadSpefOpts.zero with file := some "a.spef b.spef c.spef" }).trace.filter
        Event.isSpefCall
      = [Event.readSPEF (readArgs
            { ReadSpefOpts.zero with file := some "a.spef b.spef c.spef" } (some "a.spef") none),
          Event.readSPEFincr (some "b.spef"), Event.readSPEFincr (some "c.spef")] := by
  have htok : sampleWorld.mkWords "a.spef b.spef c.spef" = ["a.spef", "b.spef", "c.spef"] := by
    decide
  exact ⟨htok, (C9_read_spef_primary_then_incremental sampleWorld ⟨false⟩
    { ReadSpefOpts.zero with file := some "a.spef b.spef c.spef" } "a.spef b.spef c.spef"
    "a.spef" ["b.spef", "c.spef"] rfl (by decide) htok (by decide)).1⟩

/-! ## C10 -/

/-- C10 (counterexample): on the sample design each of the four operations
returns the same status, `TCL_OK`, for the empty path as for a call with a
path that reaches the engine. -/
theorem C10_empty_path_returns_ok :
    ((read_spef sampleWorld ⟨false⟩ { ReadSpefOpts.zero with file := some "" }).status
        = some (boolOf TCL_OK)
      ∧ (read_spef sampleWorld ⟨false⟩ { ReadSpefOpts.zero with file := some "a.spef" }).status
        = some (boolOf TCL_OK)
      ∧ (read_spef sampleWorld ⟨false⟩
          { ReadSpefOpts.zero with file := some "a.spef" }).trace.filter Event.isSpefCall ≠ [])
    ∧ ((diff_spef sampleWorld ⟨false⟩ { DiffOptions.zero with file := "" }).status
        = some (boolOf TCL_OK)
      ∧ (diff_spef sampleWorld ⟨false⟩ { DiffOptions.zero with file := "a.spef" }).status
        = some (boolOf TCL_OK)
      ∧ (diff_spef sampleWorld ⟨false⟩
          { DiffOptions.zero with file := "a.spef" }).trace.filter Event.isSpefCall ≠ [])
    ∧ ((calibrate sampleWorld ⟨false⟩ "" "c" 0 0 false 0 0).status = some (boolOf TCL_OK)
      ∧ (calibrate sampleWorld ⟨false⟩ "a.spef" "c" 0 0 false 0 0).status
        = some (boolOf TCL_OK)
      ∧ (calibrate sampleWorld ⟨false⟩ "a.spef" "c" 0 0 false 0 0).trace.filter
          Event.isSpefCall ≠ [])
    ∧ ((match_spef sampleWorld ⟨false⟩ "" "c" 0 0 false).status = some (boolOf TCL_OK)
      ∧ (match_spef sampleWorld ⟨false⟩ "a.spef" "c" 0 0 false).status = some (boolOf TCL_OK)
      ∧ (match_spef sampleWorld ⟨false⟩ "a.spef" "c" 0 0 false).trace.filter
          Event.isSpefCall ≠ []) := by
  decide

/-- C10 (amended): for each of `read_spef`, `diff_spef`, `calibrate` and `match`,
a call with an empty file path makes no engine call and returns `TCL_OK`, and
a call with any path returns `TCL_OK` as well: the status does not tell the
empty path from a successful call.  (For `read_spef` under `ZUI` with
`stamp_wire` and no block the run is undefined before the path is looked at.) -/
theorem C10_empty_path_is_noticed_not_failed (W : World) (x : Ext) (ropt : ReadSpefOpts)
    (dopt : DiffOptions) (db_corner_name : String) (corner spef_corner : Int) (m_map : Bool)
    (upper_limit lower_limit : Double) :
    ((read_spef W x { ropt with file := some "" }).trace.filter Event.isSpefCall = []
      ∧ (read_spef W x { ropt with file := none }).trace.filter Event.isSpefCall = []
      ∧ (diff_spef W x { dopt with file := "" }).trace.filter Event.isSpefCall = []
      ∧ (calibrate W x "" db_corner_name corner spef_corner m_map upper_limit
          lower_limit).trace.filter Event.isSpefCall = []
      ∧ (match_spef W x "" db_corner_name corner spef_corner m_map).trace.filter
          Event.isSpefCall = [])
    ∧ ((∀ file, (read_spef W x { ropt with file := file }).status
          = if (W.ZUI && ropt.stamp_wire) = true ∧ W.getBlock = none then none
            else some (boolOf TCL_OK))
      ∧ (∀ file, (diff_spef W x { dopt with file := file }).status = some (boolOf TCL_OK))
      ∧ (∀ file, (calibrate W x file db_corner_name corner spef_corner m_map upper_limit
          lower_limit).status = some (boolOf TCL_OK))
      ∧ (∀ file, (match_spef W x file db_corner_name corner spef_corner m_map).status
          = some (boolOf TCL_OK))) := by
  have hread : ∀ file, file = none ∨ file = some "" →
      (read_spef W x { ropt with file := file }).trace.filter Event.isSpefCall = [] := by
    intro file hfile
    unfold read_spef
    by_cases hz : (W.ZUI && ropt.stamp_wire) = true
    · cases hb : W.getBlock with
      | none =>
        simp only [hz, if_true]
        simp [List.filter_append, filter_spef_dbUpdate, Event.isSpefCall]
      | some b =>
        rcases hfile with h | h <;> subst h <;>
          simp [hz, readFiles, List.filter_append, filter_spef_dbUpdate, Event.isSpefCall]
    · rcases hfile with h | h <;> subst h <;>
        simp [hz, readFiles, List.filter_append, filter_spef_dbUpdate, Event.isSpefCall]
  refine ⟨⟨hread _ (Or.inr rfl), hread _ (Or.inl rfl), ?_, ?_, ?_⟩, ?_, ?_, ?_, ?_⟩
  · simp [diff_spef, List.filter_append, filter_spef_dbUpdate, Event.isSpefCall]
  · simp [calibrate, List.filter_append, filter_spef_dbUpdate, Event.isSpefCall]
  · simp [match_spef, List.filter_append, filter_spef_dbUpdate, Event.isSpefCall]
  · intro file
    unfold read_spef
    by_cases hz : (W.ZUI && ropt.stamp_wire) = true
    · cases hb : W.getBlock with
      | none => simp [hz]
      | some b =>
        simp only [hz, if_true, readFiles]
        cases file with
        | none => simp [TCL_OK]
        | some f => by_cases hf : f = "" <;> simp [hf, TCL_OK]
    · simp only [hz, if_false, readFiles, Bool.false_eq_true]
      cases file with
      | none => simp [TCL_OK]
      | some f => by_cases hf : f = "" <;> simp [hf, TCL_OK]
  · intro file
    unfold diff_spef
    by_cases hf : file = "" <;> simp [hf, TCL_OK]
  · intro file
    unfold calibrate
    by_cases hf : file = "" <;> simp [hf, TCL_OK]
  · intro file
    unfold match_spef
    by_cases hf : file = "" <;> simp [hf, TCL_OK]

/-! ## C11 -/

/-- C11 (counterexample): with the end flag false, net id 0 and no output file
(every option off or absent), `write_spef` still makes the bulk engine write. -/
theorem C11_no_inputs_still_writes :
    SpefOptions.zero.end_ = false ∧ toUInt SpefOptions.zero.net_id = 0
    ∧ SpefOptions.zero.file = none
    ∧ (write_spef sampleWorld ⟨false⟩ SpefOptions.zero).trace.filter Event.isWriteSPEF
        = [Event.writeSPEF (bulkArgs SpefOptions.zero false)]
    ∧ ¬ ((write_spef sampleWorld ⟨false⟩ SpefOptions.zero).trace.filter Event.isWriteSPEF
          = []) := by
  decide

/-- C11 (amended): `write_spef` picks one of three sub-modes, tested in this
order: the end flag (finalize), a net id above 0 (single net), and otherwise
the bulk write, whatever the file and the other inputs are.  Every call makes
exactly one engine write call, the one of its sub-mode, and returns `TCL_OK`. -/
theorem C11_write_spef_one_write_per_call (W : World) (x : Ext) (opts : SpefOptions) :
    (write_spef W x opts).status = some (boolOf TCL_OK)
    ∧ ((write_spef W x opts).trace.filter Event.isWriteSPEF).length = 1
    ∧ (opts.end_ = true →
        (write_spef W x opts).trace.filter Event.isWriteSPEF = [Event.writeSPEFend true])
    ∧ (opts.end_ = false → 0 < toUInt opts.net_id →
        (write_spef W x opts).trace.filter Event.isWriteSPEF
          = [Event.writeSPEFnet (toUInt opts.net_id) opts.single_pi opts.debug opts.corner
              opts.ext_corner_name])
    ∧ (opts.end_ = false → toUInt opts.net_id = 0 →
        (write_spef W x opts).trace.filter Event.isWriteSPEF
          = [Event.writeSPEF (bulkArgs opts (opts.parallel && opts.flatten))]) := by
  unfold write_spef
  by_cases he : opts.end_ = true
  · simp [he, TCL_OK, List.filter_append, filter_write_dbUpdate, Event.isWriteSPEF]
  · simp only [Bool.not_eq_true] at he
    by_cases hn : toUInt opts.net_id > 0
    · have hn0 : toUInt opts.net_id ≠ 0 := Nat.pos_iff_ne_zero.1 hn
      simp [he, hn, hn0, TCL_OK, List.filter_append, filter_write_dbUpdate, Event.isWriteSPEF]
    · have hn0 : toUInt opts.net_id = 0 := Nat.eq_zero_of_not_pos hn
      cases hi : opts.init <;>
        simp [he, hn0, hi, TCL_OK, List.filter_append, filter_write_dbUpdate,
          Event.isWriteSPEF]

/-- C11 (witness): a single-net write and a bulk write without a file. -/
theorem C11_write_spef_one_write_per_call_witness :
    ({ SpefOptions.zero with net_id := 7 } : SpefOptions).end_ = false
    ∧ 0 < toUInt ({ SpefOptions.zero with net_id := 7 } : SpefOptions).net_id
    ∧ (write_spef sampleWorld ⟨false⟩ { SpefOptions.zero with net_id := 7 }).trace.filter
          Event.isWriteSPEF
        = [Event.writeSPEFnet 7 false false 0 none]
    ∧ toUInt SpefOptions.zero.net_id = 0
    ∧ (write_spef sampleWorld ⟨false⟩ SpefOptions.zero).trace.filter Event.isWriteSPEF
        = [Event.writeSPEF (bulkArgs SpefOptions.zero
            (SpefOptions.zero.parallel && SpefOptions.zero.flatten))] :=
  ⟨rfl, by decide,
    (C11_write_spef_one_write_per_call sampleWorld ⟨false⟩
      { SpefOptions.zero with net_id := 7 }).2.2.2.1 rfl (by decide),
    by decide,
    (C11_write_spef_one_write_per_call sampleWorld ⟨false⟩ SpefOptions.zero).2.2.2.2 rfl
      (by decide)⟩

/-! ## C12 -/

/-- C12: in the bulk-write sub-mode (end flag false, net id 0) the one engine
write call is the bulk `writeSPEF` whose init-only argument is true exactly
when both the parallel and the flatten options are set; the call is the same
whatever the init option of the caller is. -/
theorem C12_init_only_is_parallel_and_flatten (W : World) (x : Ext) (opts : SpefOptions)
    (he : opts.end_ = false) (hn : toUInt opts.net_id = 0) :
    (∃ a, (write_spef W x opts).trace.filter Event.isWriteSPEF = [Event.writeSPEF a]
        ∧ (a.initOnly = true ↔ (opts.parallel = true ∧ opts.flatten = true)))
    ∧ (∀ b, (write_spef W x { opts with init := b }).trace.filter Event.isWriteSPEF
          = (write_spef W x opts).trace.filter Event.isWriteSPEF) := by
  have h : ∀ o : SpefOptions, o.end_ = false → toUInt o.net_id = 0 →
      (write_spef W x o).trace.filter Event.isWriteSPEF
        = [Event.writeSPEF (bulkArgs o (o.parallel && o.flatten))] := by
    intro o h1 h2
    unfold write_spef
    cases hi : o.init <;>
      simp [h1, h2, hi, List.filter_append, filter_write_dbUpdate, Event.isWriteSPEF]
  refine ⟨⟨_, h opts he hn, ?_⟩, ?_⟩
  · simp [bulkArgs]
  · intro b
    rw [h opts he hn, h { opts with init := b } he hn]
    rfl

/-- C12 (witness): with parallel and flatten set and the init option off, the
bulk write of the sample run gets init-only true. -/
theorem C12_init_only_is_parallel_and_flatten_witness :
    ({ SpefOptions.zero with parallel := true, flatten := true } : SpefOptions).end_ = false
    ∧ toUInt ({ SpefOptions.zero with parallel := true, flatten := true } : SpefOptions).net_id
        = 0
    ∧ ∃ a, (write_spef sampleWorld ⟨false⟩
          { SpefOptions.zero with parallel := true, flatten := true }).trace.filter
          Event.isWriteSPEF = [Event.writeSPEF a]
        ∧ a.initOnly = true := by
  refine ⟨rfl, by decide, ?_⟩
  obtain ⟨a, h1, h2⟩ := (C12_init_only_is_parallel_and_flatten sampleWorld ⟨false⟩
    { SpefOptions.zero with parallel := true, flatten := true } rfl (by decide)).1
  exact ⟨a, h1, h2.2 ⟨rfl, rfl⟩⟩

/-! ## C13 -/

/-- C13 (counterexample): a bulk write with the init option set emits no start
notice: the first call after the binding check is the engine write. -/
theorem C13_init_suppresses_start_notice :
    ({ SpefOptions.zero with init := true } : SpefOptions).end_ = false
    ∧ toUInt ({ SpefOptions.zero with init := true } : SpefOptions).net_id = 0
    ∧ (write_spef sampleWorld ⟨false⟩ { SpefOptions.zero with init := true }).trace
        = [Event.setDB, Event.writeSPEF (bulkArgs { SpefOptions.zero with init := true } false),
            Event.notice "Finished writing SPEF ...\n" []]
    ∧ Event.notice "Writing SPEF ...\n" []
        ∉ (write_spef sampleWorld ⟨false⟩ { SpefOptions.zero with init := true }).trace := by
  decide

/-- C13 (amended): every bulk write emits the finish notice right after the
engine write, and the start notice right before it exactly when the init
option is off. -/
theorem C13_start_notice_unless_init (W : World) (x : Ext) (opts : SpefOptions)
    (he : opts.end_ = false) (hn : toUInt opts.net_id = 0) :
    (write_spef W x opts).trace
      = (dbUpdate W x).2
          ++ (if opts.init = true then [] else [Event.notice "Writing SPEF ...\n" []])
          ++ [Event.writeSPEF (bulkArgs opts (opts.parallel && opts.flatten)),
              Event.notice "Finished writing SPEF ...\n" []]
    ∧ (Event.notice "Writing SPEF ...\n" [] ∈ (write_spef W x opts).trace
        ↔ opts.init = false) := by
  have hd : Event.notice "Writing SPEF ...\n" [] ∉ (dbUpdate W x).2 := by
    unfold dbUpdate
    split <;> simp
  have ht : (write_spef W x opts).trace
      = (dbUpdate W x).2
          ++ (if opts.init = true then [] else [Event.notice "Writing SPEF ...\n" []])
          ++ [Event.writeSPEF (bulkArgs opts (opts.parallel && opts.flatten)),
              Event.notice "Finished writing SPEF ...\n" []] := by
    unfold write_spef
    cases hi : opts.init <;> simp [he, hn, hi]
  refine ⟨ht, ?_⟩
  rw [ht]
  cases hi : opts.init <;> simp [hd]

/-- C13 (witness): a bulk write with the init option off on the sample design. -/
theorem C13_start_notice_unless_init_witness :
    SpefOptions.zero.end_ = false ∧ toUInt SpefOptions.zero.net_id = 0
    ∧ (Event.notice "Writing SPEF ...\n" []
        ∈ (write_spef sampleWorld ⟨false⟩ SpefOptions.zero).trace) :=
  ⟨rfl, by decide,
    ((C13_start_notice_unless_init sampleWorld ⟨false⟩ SpefOptions.zero rfl
      (by decide)).2).2 rfl⟩

/-! ## C14 -/

/-- C14: for every derived-corner name, all scale factors and every base corner
name that is empty or is not the name of a corner of the table,
`define_derived_corner` returns `TCL_ERROR` and the corner table after the
call is the table before it. -/
theorem C14_unknown_base_corner_fails (W : World) (x : Ext) (table : List extCorner)
    (name base : String) (res_factor cc_factor gndc_factor : Double)
    (hbase : base = "" ∨ ∀ k ∈ table, k.name ≠ base) :
    (define_derived_corner W x table name base res_factor cc_factor gndc_factor).1.status
      = some (boolOf TCL_ERROR)
    ∧ (define_derived_corner W x table name base res_factor cc_factor gndc_factor).2
      = table := by
  unfold define_derived_corner
  by_cases he : base = ""
  · simp [he]
  · have hk : ∀ k ∈ table, k.name ≠ base := by
      rcases hbase with h | h
      · exact absurd h he
      · exact h
    have hfind : table.find? (fun k => decide (k.name = base)) = none := by
      rw [List.find?_eq_none]
      intro k hk1
      simpa using hk k hk1
    have hmodel : getDbCornerModel table base = -1 := by
      unfold getDbCornerModel
      rw [hfind]
    have hany : table.any (fun k => decide ((k.model : Int) = -1)) = false := by
      rw [List.any_eq_false]
      intro k _
      simp only [decide_eq_true_eq]
      omega
    have hadd : addRCCornerScaled table name (-1) res_factor cc_factor gndc_factor
        = (none, table) := by
      unfold addRCCornerScaled
      rw [hany]
      rfl
    simp [he, hmodel, hadd]

/-- C14 (witness): a derived corner from the undefined base "fast" on a table
that holds the corner "typical". -/
theorem C14_unknown_base_corner_fails_witness :
    ("fast" = "" ∨ ∀ k ∈ sampleCorners, k.name ≠ "fast")
    ∧ (define_derived_corner sampleWorld ⟨false⟩ sampleCorners "fast_scaled" "fast"
        (11 / 10) 1 (9 / 10)).2 = sampleCorners
    ∧ (define_derived_corner sampleWorld ⟨false⟩ sampleCorners "typical_scaled" "typical"
        (11 / 10) 1 (9 / 10)).1.status = some (boolOf TCL_OK) := by
  have h : "fast" = "" ∨ ∀ k ∈ sampleCorners, k.name ≠ "fast" := by
    right
    decide
  exact ⟨h, (C14_unknown_base_corner_fails sampleWorld ⟨false⟩ sampleCorners "fast_scaled"
    "fast" (11 / 10) 1 (9 / 10) h).2, by decide⟩

/-! ## C15 -/

/-- C15 (counterexample): for the name "fast", which the engine does not know
(its lookup yields -1), `get_ext_db_corner` returns `TCL_OK`, the status it
returns for the defined corner "typical". -/
theorem C15_unknown_corner_returns_ok :
    sampleWorldCorners.getDbCornerIndex "fast" = -1
    ∧ (get_ext_db_corner sampleWorldCorners ⟨false⟩ "fast").1.status = some (boolOf TCL_OK)
    ∧ (get_ext_db_corner sampleWorldCorners ⟨false⟩ "fast").2 = -1
    ∧ sampleWorldCorners.getDbCornerIndex "typical" = 0
    ∧ (get_ext_db_corner sampleWorldCorners ⟨false⟩ "typical").1.status
        = (get_ext_db_corner sampleWorldCorners ⟨false⟩ "fast").1.status := by
  decide

/-- C15 (amended): `get_ext_db_corner` returns `TCL_OK` for every name and hands
back the index that the lookup of the engine yields; when that index is
negative it also emits the warning that the corner was not found, and
otherwise it emits no warning. -/
theorem C15_corner_lookup_warns_but_succeeds (W : World) (x : Ext) (name : String) :
    (get_ext_db_corner W x name).1.status = some (boolOf TCL_OK)
    ∧ (get_ext_db_corner W x name).2 = W.getDbCornerIndex name
    ∧ (Event.warning "extraction corner %s not found\n" [FmtArg.str name]
          ∈ (get_ext_db_corner W x name).1.trace
        ↔ W.getDbCornerIndex name < 0) := by
  have hd : Event.warning "extraction corner %s not found\n" [FmtArg.str name]
      ∉ (dbUpdate W x).2 := by
    unfold dbUpdate
    split <;> simp
  unfold get_ext_db_corner
  by_cases h : W.getDbCornerIndex name < 0
  · simp [h]
  · simp [h, hd]

/-! ## C16 -/

/-- C16 (counterexample): on a database without a chip, two calls of
`bench_wires` on a new `Ext` invoke `setDB` each. -/
theorem C16_bench_wires_binds_without_chip :
    sampleWorldNoChip.getChip = false
    ∧ (runCalls Ext.new
        [(sampleWorldNoChip, Call.bench_wires BenchWiresOptions.zero),
         (sampleWorldNoChip, Call.bench_wires BenchWiresOptions.zero)]).map
        (fun e => (e.1.getChip, e.2.2.filter (fun ev => decide (ev = Event.setDB))))
      = [(false, [Event.setDB]), (false, [Event.setDB])]
    ∧ ¬ (∀ e ∈ runCalls Ext.new
          [(sampleWorldNoChip, Call.bench_wires BenchWiresOptions.zero),
           (sampleWorldNoChip, Call.bench_wires BenchWiresOptions.zero)],
        Event.setDB ∈ e.2.2 → e.1.getChip = true) := by
  refine ⟨rfl, by decide, ?_⟩
  intro h
  have h1 := h (sampleWorldNoChip, Call.bench_wires BenchWiresOptions.zero,
    (Call.run sampleWorldNoChip Ext.new (Call.bench_wires BenchWiresOptions.zero)).2)
    (by simp [runCalls]) (by decide)
  exact absurd h1 (by decide)

/-- C16 (amended): over every sequence of entry-point calls, from every state:
a call made without a chip invokes `setDB` only if it is `bench_wires` or
`set_block`; at most one call made with a chip present begins with `setDB`,
the lazy bind of `dbUpdate()`; in a call made with a chip present and other
than `set_block`, `setDB` is invoked nowhere but at that place; and on an
`Ext` that is not bound yet, the first call made with a chip present begins
with `setDB`. -/
theorem C16_lazy_bind_except_bench_wires_and_set_block (x0 : Ext)
    (calls : List (World × Call)) :
    (∀ e ∈ runCalls x0 calls, Event.setDB ∈ e.2.2 → e.1.getChip = false →
      e.2.1.isBenchWires = true ∨ e.2.1.isSetBlock = true)
    ∧ ((runCalls x0 calls).filter boundWithChip).length ≤ 1
    ∧ (∀ e ∈ runCalls x0 calls, e.1.getChip = true → e.2.1.isSetBlock = false →
        Event.setDB ∉ e.2.2.tail)
    ∧ (x0._initWithChip = false → ∀ pre W c post, calls = pre ++ (W, c) :: post →
        (∀ p ∈ pre, p.1.getChip = false) → W.getChip = true →
        ∃ tr rest, runCalls x0 calls = runCalls x0 pre ++ (W, c, tr) :: rest
          ∧ tr.head? = some Event.setDB) := by
  refine ⟨?_, ?_, ?_, ?_⟩
  · induction calls generalizing x0 with
    | nil => intro e he; simp [runCalls] at he
    | cons p rest ih =>
      obtain ⟨W, c⟩ := p
      intro e he hmem hchip
      simp only [runCalls, List.mem_cons] at he
      rcases he with rfl | he
      · exact run_setDB_nochip W x0 c hchip hmem
      · exact ih _ e he hmem hchip
  · have h := bound_count calls x0
    split at h <;> omega
  · induction calls generalizing x0 with
    | nil => intro e he; simp [runCalls] at he
    | cons p rest ih =>
      obtain ⟨W, c⟩ := p
      intro e he hchip hs
      simp only [runCalls, List.mem_cons] at he
      rcases he with rfl | he
      · obtain ⟨r, h1, _, h3⟩ := run_trace_chip W x0 c hchip
        have h4 := h3 hs
        show Event.setDB ∉ (Call.run W x0 c).2.tail
        rw [h1]
        rcases dbUpdate_cases W x0 with ⟨hd, _⟩ | ⟨hd, _⟩
        · rw [hd]
          simpa using h4
        · rw [hd]
          intro h5
          exact h4 (List.mem_of_mem_tail h5)
      · exact ih _ e he hchip hs
  · intro hx pre W c post hcalls hpre hchip
    subst hcalls
    rw [runCalls_append]
    refine ⟨(Call.run W (endState x0 pre) c).2, runCalls (Call.run W (endState x0 pre) c).1 post,
      rfl, ?_⟩
    exact (run_head_chip W (endState x0 pre) c hchip).2 (endState_unbound x0 pre hx hpre)

/-- C16 (witness): a call before the design is loaded and two calls after it:
only the first call with the chip invokes `setDB`. -/
theorem C16_lazy_bind_except_bench_wires_and_set_block_witness :
    Ext.new._initWithChip = false
    ∧ (∀ p ∈ [(sampleWorldNoChip, Call.other "get_corners")], p.1.getChip = false)
    ∧ sampleWorld.getChip = true
    ∧ (runCalls Ext.new
        [(sampleWorldNoChip, Call.other "get_corners"), (sampleWorld, Call.other "extract"),
         (sampleWorld, Call.other "write_spef")]).map (fun e => e.2.2)
      = [[Event.body "get_corners"], [Event.setDB, Event.body "extract"],
         [Event.body "write_spef"]]
    ∧ ∃ tr rest, runCalls Ext.new
          [(sampleWorldNoChip, Call.other "get_corners"), (sampleWorld, Call.other "extract"),
           (sampleWorld, Call.other "write_spef")]
        = runCalls Ext.new [(sampleWorldNoChip, Call.other "get_corners")]
            ++ (sampleWorld, Call.other "extract", tr) :: rest
        ∧ tr.head? = some Event.setDB := by
  have hpre : ∀ p ∈ [(sampleWorldNoChip, Call.other "get_corners")], p.1.getChip = false := by
    intro p hp
    simp only [List.mem_singleton] at hp
    rw [hp]
    rfl
  exact ⟨rfl, hpre, rfl, by decide,
    (C16_lazy_bind_except_bench_wires_and_set_block Ext.new
      [(sampleWorldNoChip, Call.other "get_corners"), (sampleWorld, Call.other "extract"),
       (sampleWorld, Call.other "write_spef")]).2.2.2 rfl
      [(sampleWorldNoChip, Call.other "get_corners")] sampleWorld (Call.other "extract")
      [(sampleWorld, Call.other "write_spef")] rfl hpre rfl⟩

/-! ## C17 -/

/-- C17 (code): `net_stats` never calls `printNetStats` with `stdout` as its
stream, whatever the file name is: the file name is always passed to `fopen`.
In particular, with the empty file name on a design with an extracted block
and a file system that cannot open the file of empty name, the run warns that
the file cannot be opened, does not call `printNetStats` and leaves `net_ids`
as it was. -/
theorem C17_empty_file_name_goes_to_fopen :
    (∀ (W : World) (x : Ext) (net_ids : List Int)
        (tcap ccap ratio_cap res len met_cnt wire_cnt via_cnt seg_cnt term_cnt bterm_cnt file
          bbox branch_len : String) (e : Event),
        e ∈ (net_stats W x net_ids tcap ccap ratio_cap res len met_cnt wire_cnt via_cnt seg_cnt
              term_cnt bterm_cnt file bbox branch_len).1.trace →
        (∀ blk l a b c n ns, e ≠ Event.printNetStats FILE.stdout blk l a b c n ns)
        ∧ Event.fopen file "w" (W.fopen file)
            ∈ (net_stats W x net_ids tcap ccap ratio_cap res len met_cnt wire_cnt via_cnt seg_cnt
                term_cnt bterm_cnt file bbox branch_len).1.trace)
    ∧ sampleWorldFiles.getBlock = some ⟨"top", [1, 2]⟩
    ∧ (net_stats sampleWorldFiles ⟨false⟩ [9] "" "" "" "" "" "" "" "" "" "" "" "" ""
        "").1.trace.filter Event.isPrintNetStats = []
    ∧ Event.warning "Cannot open file %s\n" [FmtArg.str ""]
        ∈ (net_stats sampleWorldFiles ⟨false⟩ [9] "" "" "" "" "" "" "" "" "" "" "" "" ""
            "").1.trace
    ∧ (net_stats sampleWorldFiles ⟨false⟩ [9] "" "" "" "" "" "" "" "" "" "" "" "" "" "").2
        = [9] := by
  refine ⟨?_, rfl, by decide, by decide, by decide⟩
  intro W x net_ids tcap ccap ratio_cap res len met_cnt wire_cnt via_cnt seg_cnt term_cnt
    bterm_cnt file bbox branch_len e he
  rw [net_stats_trace] at he ⊢
  refine ⟨?_, by simp⟩
  intro blk l a b c n ns heq
  subst heq
  simp only [List.mem_append, List.mem_map, List.mem_singleton] at he
  rcases he with (((h | h) | h) | h) | h
  · have := mem_dbUpdate W x _ h
    cases this
  · cases h
  · obtain ⟨u, _, hu⟩ := h
    cases hu
  · cases h
  · cases hf : W.fopen file with
    | none =>
      rw [hf] at h
      simp at h
    | some hd =>
      cases hb : W.getBlock with
      | none =>
        rw [hf, hb] at h
        simp at h
      | some block =>
        rw [hf, hb] at h
        simp at h

/-! ## C18 -/

/-- C18 (counterexample): on a design without an extracted block, `net_stats`
with the file name "out.rpt" opens the file (handle 3), takes the early return
with `TCL_OK`, and its trace holds no `fclose` call. -/
theorem C18_early_return_leaves_file_open :
    sampleWorldNoBlock.getBlock = none
    ∧ (net_stats sampleWorldNoBlock ⟨false⟩ [] "" "" "" "" "" "" "" "" "" "" "" "out.rpt" ""
        "").1.trace.filter Event.isFopen = [Event.fopen "out.rpt" "w" (some 3)]
    ∧ (net_stats sampleWorldNoBlock ⟨false⟩ [] "" "" "" "" "" "" "" "" "" "" "" "out.rpt" ""
        "").1.trace.filter Event.isFclose = []
    ∧ Event.fclose 3
        ∉ (net_stats sampleWorldNoBlock ⟨false⟩ [] "" "" "" "" "" "" "" "" "" "" "" "out.rpt" ""
            "").1.trace
    ∧ (net_stats sampleWorldNoBlock ⟨false⟩ [] "" "" "" "" "" "" "" "" "" "" "" "out.rpt" ""
        "").1.status = some (boolOf TCL_OK) := by
  decide

/-- C18 (amended): every run of `net_stats` calls `fopen` exactly once, on the
given file name, and makes no `fclose` call.  A handle that it opened is
handed to `printNetStats` when there is an extracted block; on the early
return taken when there is no extracted block no further call is made on it. -/
theorem C18_net_stats_never_closes (W : World) (x : Ext) (net_ids : List Int)
    (tcap ccap ratio_cap res len met_cnt wire_cnt via_cnt seg_cnt term_cnt bterm_cnt file bbox
      branch_len : String) :
    (net_stats W x net_ids tcap ccap ratio_cap res len met_cnt wire_cnt via_cnt seg_cnt
        term_cnt bterm_cnt file bbox branch_len).1.trace.filter Event.isFopen
      = [Event.fopen file "w" (W.fopen file)]
    ∧ (net_stats W x net_ids tcap ccap ratio_cap res len met_cnt wire_cnt via_cnt seg_cnt
        term_cnt bterm_cnt file bbox branch_len).1.trace.filter Event.isFclose = []
    ∧ (∀ h block, W.fopen file = some h → W.getBlock = some block →
        ∃ n ns, (net_stats W x net_ids tcap ccap ratio_cap res len met_cnt wire_cnt via_cnt
            seg_cnt term_cnt bterm_cnt file bbox branch_len).1.trace.filter
            Event.isPrintNetStats
          = [Event.printNetStats (FILE.opened h) block
              (netStatsLimits tcap ccap ratio_cap res len met_cnt wire_cnt via_cnt term_cnt
                bterm_cnt bbox) false false true n ns])
    ∧ (W.getBlock = none →
        (net_stats W x net_ids tcap ccap ratio_cap res len met_cnt wire_cnt via_cnt seg_cnt
          term_cnt bterm_cnt file bbox branch_len).1.trace.filter Event.isPrintNetStats
          = []) := by
  rw [net_stats_trace]
  refine ⟨?_, ?_, ?_, ?_⟩
  · simp only [List.filter_append, filter_dbUpdate_nil Event.isFopen rfl,
      filter_limits_nil Event.isFopen (fun _ => rfl)]
    cases hf : W.fopen file with
    | none => simp [Event.isFopen]
    | some h => cases hb : W.getBlock <;> simp [Event.isFopen]
  · simp only [List.filter_append, filter_dbUpdate_nil Event.isFclose rfl,
      filter_limits_nil Event.isFclose (fun _ => rfl)]
    cases hf : W.fopen file with
    | none => simp [Event.isFclose]
    | some h => cases hb : W.getBlock <;> simp [Event.isFclose]
  · intro h block hf hb
    refine ⟨(W.printNetStats (FILE.opened h) block
        (netStatsLimits tcap ccap ratio_cap res len met_cnt wire_cnt via_cnt term_cnt
          bterm_cnt bbox)).1,
      (W.printNetStats (FILE.opened h) block
        (netStatsLimits tcap ccap ratio_cap res len met_cnt wire_cnt via_cnt term_cnt
          bterm_cnt bbox)).2, ?_⟩
    simp only [List.filter_append, filter_dbUpdate_nil Event.isPrintNetStats rfl,
      filter_limits_nil Event.isPrintNetStats (fun _ => rfl), hf, hb]
    simp [Event.isPrintNetStats]
  · intro hb
    simp only [List.filter_append, filter_dbUpdate_nil Event.isPrintNetStats rfl,
      filter_limits_nil Event.isPrintNetStats (fun _ => rfl), hb]
    cases hf : W.fopen file <;> simp [Event.isPrintNetStats]

/-- C18 (witness): a run on the sample design with an extracted block hands
the handle of "out.rpt" to `printNetStats`. -/
theorem C18_net_stats_never_closes_witness :
    sampleWorldFiles.fopen "out.rpt" = some 3
    ∧ sampleWorldFiles.getBlock = some ⟨"top", [1, 2]⟩
    ∧ (net_stats sampleWorldFiles ⟨false⟩ [] "" "" "" "" "" "" "" "" "" "" "" "out.rpt" ""
        "").1.trace.filter Event.isFclose = []
    ∧ ∃ n ns, (net_stats sampleWorldFiles ⟨false⟩ [] "" "" "" "" "" "" "" "" "" "" ""
          "out.rpt" "" "").1.trace.filter Event.isPrintNetStats
        = [Event.printNetStats (FILE.opened 3) ⟨"top", [1, 2]⟩
            (netStatsLimits "" "" "" "" "" "" "" "" "" "" "") false false true n ns] :=
  ⟨rfl, rfl,
    (C18_net_stats_never_closes sampleWorldFiles ⟨false⟩ [] "" "" "" "" "" "" "" "" "" "" ""
      "out.rpt" "" "").2.1,
    (C18_net_stats_never_closes sampleWorldFiles ⟨false⟩ [] "" "" "" "" "" "" "" "" "" "" ""
      "out.rpt" "" "").2.2.1 3 ⟨"top", [1, 2]⟩ rfl rfl⟩

/-! ## C19 -/

/-- C19 (code): the run of `net_stats` and the list it returns do not depend on
`seg_cnt`: two calls that differ only in `seg_cnt` make the same calls, with
the same limits handed to `printNetStats`.  On the sample design the calls
with `seg_cnt` "5" and "10" hand over the same limits, while the calls with
`wire_cnt` "5" and "10" hand over different ones. -/
theorem C19_seg_cnt_is_not_installed :
    (∀ (W : World) (x : Ext) (net_ids : List Int)
        (tcap ccap ratio_cap res len met_cnt wire_cnt via_cnt term_cnt bterm_cnt file bbox
          branch_len seg_cnt1 seg_cnt2 : String),
        (net_stats W x net_ids tcap ccap ratio_cap res len met_cnt wire_cnt via_cnt seg_cnt1
            term_cnt bterm_cnt file bbox branch_len).1.trace
          = (net_stats W x net_ids tcap ccap ratio_cap res len met_cnt wire_cnt via_cnt seg_cnt2
              term_cnt bterm_cnt file bbox branch_len).1.trace
        ∧ (net_stats W x net_ids tcap ccap ratio_cap res len met_cnt wire_cnt via_cnt seg_cnt1
            term_cnt bterm_cnt file bbox branch_len).2
          = (net_stats W x net_ids tcap ccap ratio_cap res len met_cnt wire_cnt via_cnt seg_cnt2
              term_cnt bterm_cnt file bbox branch_len).2)
    ∧ (net_stats sampleWorldFiles ⟨false⟩ [] "" "" "" "" "" "" "" "" "5" "" "" "out.rpt" ""
        "").1.trace.filter Event.isPrintNetStats
      = (net_stats sampleWorldFiles ⟨false⟩ [] "" "" "" "" "" "" "" "" "10" "" "" "out.rpt" ""
          "").1.trace.filter Event.isPrintNetStats
    ∧ (net_stats sampleWorldFiles ⟨false⟩ [] "" "" "" "" "" "" "" "" "5" "" "" "out.rpt" ""
        "").1.trace.filter Event.isPrintNetStats
      = [Event.printNetStats (FILE.opened 3) ⟨"top", [1, 2]⟩
          (netStatsLimits "" "" "" "" "" "" "" "" "" "" "") false false true 2 [1, 2]]
    ∧ (net_stats sampleWorldFiles ⟨false⟩ [] "" "" "" "" "" "" "5" "" "" "" "" "out.rpt" ""
        "").1.trace.filter Event.isPrintNetStats
      ≠ (net_stats sampleWorldFiles ⟨false⟩ [] "" "" "" "" "" "" "10" "" "" "" "" "out.rpt" ""
          "").1.trace.filter Event.isPrintNetStats := by
  refine ⟨?_, ?_, ?_, ?_⟩
  · intro W x net_ids tcap ccap ratio_cap res len met_cnt wire_cnt via_cnt term_cnt bterm_cnt
      file bbox branch_len seg_cnt1 seg_cnt2
    exact ⟨rfl, rfl⟩
  · decide
  · decide
  · decide

end OpenRCX
